import Mathlib

/-!
# gobco: workspace resolution, test orchestration and coverage report

A shallow embedding of `gobco.go`, `gotest.go`, `logger.go`, `buildenv.go` and
`main.go`.

* Go strings are Lean strings; `int` is `Int` (no arithmetic of the program can
  overflow: the only sums are `3*capped+capped` and a counter bounded by twice
  the length of a slice).
* An `io.Writer` is the text written to it so far.
* The operating system (file system probes, environment, sub-processes, the
  random source) is a record of oracles, `Sys`; the effects the program performs
  on it are recorded, in order, as a list of `Event`s.
* `exit(n)` and `panic(msg)` end the computation: every operation that can reach
  one of them returns an `Outcome`.
* Paths follow the Unix flavour of `path/filepath` (separator `/`, list
  separator `:`, no volume names).
-/

namespace Gobco

/-! ## The Go library functions the program calls -/

/-- Go's `strings.HasPrefix(s, pre)`. -/
def HasPrefix (s pre : String) : Bool := pre.data.isPrefixOf s.data

/-- Go's `strings.Join(elems, sep)`. -/
def stringsJoin : List String → String → String
  | [], _ => ""
  | [a], _ => a
  | a :: b :: rest, sep => a ++ sep ++ stringsJoin (b :: rest) sep

/-- The verb `%d` of package fmt, for an `int`. -/
def fmtD (n : Int) : String := toString n

/-- Go's `strings.Split(s, sep)` for a one-character separator, on characters:
a string with k separators has k+1 fields. -/
def splitChars (sep : Char) : List Char → List (List Char)
  | [] => [[]]
  | c :: cs =>
    if c = sep then [] :: splitChars sep cs
    else
      match splitChars sep cs with
      | [] => [[c]]
      | w :: ws => (c :: w) :: ws

/-- The fields of `s` between the occurrences of `sep`. -/
def splitOnChar (sep : Char) (s : String) : List String :=
  (splitChars sep s.data).map String.mk

/-- Go's `filepath.ListSeparator` (Unix). -/
def ListSeparator : Char := ':'

/-- Go's `filepath.SplitList`: the empty string has no entries, every other
string is split at each list separator. -/
def SplitList (path : String) : List String :=
  if path = "" then [] else splitOnChar ListSeparator path

/-- A lexically cleaned path: whether it starts at the root, and its elements
(none of them empty or "."; ".." only at the front of an unrooted path). -/
structure Path where
  rooted : Bool
  elems : List String
deriving DecidableEq, Repr

/-- The element pass of `filepath.Clean`: `stack` holds the elements kept so
far, last one first. Empty elements and "." are dropped; ".." removes the element
before it, is dropped at the root, and is kept in front of an unrooted path. -/
def cleanElems (rooted : Bool) : List String → List String → List String
  | stack, [] => stack.reverse
  | stack, e :: rest =>
    if e = "" ∨ e = "." then cleanElems rooted stack rest
    else if e = ".." then
      match stack with
      | [] => if rooted then cleanElems rooted [] rest else cleanElems rooted [".."] rest
      | top :: below =>
        if top = ".." then cleanElems rooted (".." :: top :: below) rest
        else cleanElems rooted below rest
    else cleanElems rooted (e :: stack) rest

/-- Whether the path starts with a separator (`filepath.IsAbs` on Unix). -/
def IsAbs (p : String) : Bool := p.data.head? = some '/'

/-- The cleaned form of a path string. -/
def parsePath (p : String) : Path :=
  { rooted := IsAbs p, elems := cleanElems (IsAbs p) [] (splitOnChar '/' p) }

/-- The string of a cleaned path: "/" and "." for the two empty paths. -/
def Path.toString (p : Path) : String :=
  if p.rooted then "/" ++ stringsJoin p.elems "/"
  else if p.elems = [] then "." else stringsJoin p.elems "/"

/-- Go's `filepath.Clean`. -/
def Clean (p : String) : String := (parsePath p).toString

/-- Go's `filepath.Join` of two elements: empty elements are ignored, the rest
is joined by a separator and cleaned; the join of nothing is "". -/
def Join (a b : String) : String :=
  if a = "" then (if b = "" then "" else Clean b)
  else Clean (a ++ "/" ++ b)

/-- Go's `filepath.Dir`: everything up to the last separator, cleaned. -/
def Dir (p : String) : String :=
  Path.toString
    { rooted := IsAbs p
      elems := cleanElems (IsAbs p) [] (splitOnChar '/' p).dropLast }

/-- Go's `filepath.Base`: the last element, trailing separators removed; "."
for the empty path, "/" for a path of separators only. -/
def Base (p : String) : String :=
  if p = "" then "."
  else
    match ((splitOnChar '/' p).filter (fun e => e ≠ "")).getLast? with
    | none => "/"
    | some e => e

/-- Go's `filepath.FromSlash`: the identity where the separator is the slash. -/
def FromSlash (p : String) : String := p

/-- Go's `filepath.Abs` with the working directory `cwd`, as a cleaned path. -/
def AbsPath (cwd p : String) : Path :=
  if IsAbs p then parsePath p else parsePath (cwd ++ "/" ++ p)

/-- Go's `filepath.Abs` with the working directory `cwd`. -/
def Abs (cwd p : String) : String := (AbsPath cwd p).toString

/-- The elements of `targ` below the longest common leading part of `base` and
`targ`, after one ".." for each element of `base` outside that part. -/
def relElems : List String → List String → List String
  | b :: bs, t :: ts =>
    if b = t then relElems bs ts else (b :: bs).map (fun _ => "..") ++ (t :: ts)
  | bs, ts => bs.map (fun _ => "..") ++ ts

/-- The part of `base` left over after the longest common leading part. -/
def restOfBase : List String → List String → List String
  | b :: bs, t :: ts => if b = t then restOfBase bs ts else b :: bs
  | bs, _ => bs

/-- Go's `filepath.Rel(base, targ)` on cleaned paths: an error when exactly one
of them is rooted, or when the first differing element of `base` is "..". -/
def Rel (base targ : Path) : Except String String :=
  if base = targ then .ok "."
  else if base.rooted ≠ targ.rooted then
    .error ("Rel: can't make " ++ targ.toString ++ " relative to " ++ base.toString)
  else if (restOfBase base.elems targ.elems).head? = some ".." then
    .error ("Rel: can't make " ++ targ.toString ++ " relative to " ++ base.toString)
  else .ok (stringsJoin (relElems base.elems targ.elems) "/")

deriving instance DecidableEq for Except

/-! ## The data of the program (`gotest.go`, `gobco.go`, `logger.go`, `buildenv.go`) -/

/-- The properties of an item that will be instrumented (`argInfo`). -/
structure argInfo where
  arg : String
  argDir : String
  module : Bool
  copySrc : String
  copyDst : String
  instrFile : String
  instrDir : String
deriving DecidableEq, Repr

/-- One coverage record (`condition`). -/
structure condition where
  Start : String
  Code : String
  TrueCount : Int
  FalseCount : Int
deriving DecidableEq, Repr

/-- Basic logging (`logger`); each writer is the text written to it. -/
structure logger where
  stdout : String
  stderr : String
  verbose : Bool
deriving DecidableEq, Repr

/-- The build environment (`buildEnv`); its logger is the one of the enclosing
`gobco`. -/
structure buildEnv where
  tmpdir : String
deriving DecidableEq, Repr

/-- An effect of the program on the operating system. -/
inductive Event where
  | mkdirAll (dir : String)
  | copyDir (src dst : String)
  | instrument (immediately listAll coverTest : Bool) (argDir instrFile instrDst : String)
  | goTest (dir : String) (argv env : List String)
  | removeAll (dir : String)
deriving DecidableEq, Repr

/-- The state of a run: the fields of the Go struct `gobco` with its two embedded
structs, then what the run has done outside of it: the text printed to
`os.Stdout` directly and the effects on the operating system, latest last. -/
structure gobco where
  listAll : Bool
  immediately : Bool
  keep : Bool
  coverTest : Bool
  goTestArgs : List String
  args : List argInfo
  statsFilename : String
  exitCode : Int
  logger : logger
  buildEnv : buildEnv
  osStdout : String
  events : List Event
deriving DecidableEq, Repr

/-- How a call ends: it returns `val`, or the process ends in `exit(code)`, or
in a panic. The state at that point comes with it. -/
inductive Outcome (α : Type) where
  | ok (val : α) (g : gobco)
  | exit (code : Int) (g : gobco)
  | panics (msg : String) (g : gobco)
deriving DecidableEq

/-- The exit status of the process for an outcome of `main`: the argument of
`exit`, and 2 after a panic that nothing recovers (the Go runtime's status). -/
def Outcome.status : Outcome Int → Int
  | .ok code _ => code
  | .exit code _ => code
  | .panics _ _ => 2

/-- Whether the call returned. -/
def Outcome.returned {α : Type} : Outcome α → Bool
  | .ok _ _ => true
  | _ => false

/-- The state at the end of an outcome. -/
def Outcome.state {α : Type} : Outcome α → gobco
  | .ok _ g => g
  | .exit _ g => g
  | .panics _ g => g

/-- What the flag package made of the command line: a parse error (reported
through `flags.Usage`), or the values of the flags and the remaining
arguments. -/
inductive FlagParse where
  | failed (err usageText : String)
  | parsed (help ver immediately keep listAll verbose coverTest : Bool)
      (stats : String) (test : List String) (usageText : String) (rest : List String)

/-- The operating system and the library, as far as the program asks them. -/
structure Sys where
  /-- The verb `%q` of package fmt (`strconv.Quote`). -/
  quote : String → String
  /-- The working directory, an absolute path. -/
  cwd : String
  /-- The result of `os.TempDir()`. -/
  tempDir : String
  /-- The value of `randomHex(8)` in `buildEnv.init`. -/
  randomHexInit : String
  /-- The value of `randomHex(8)` in `classify`. -/
  randomHexClassify : String
  /-- The error of `os.MkdirAll(dir, 0777)`, if any. -/
  mkdirAll : String → Option String
  /-- Whether `os.Stat` succeeds on the path and finds a directory. -/
  isDir : String → Bool
  /-- Whether `os.Lstat` succeeds on the path. -/
  lstatOk : String → Bool
  /-- The result of `os.Getenv("GOPATH")`. -/
  getenvGOPATH : String
  /-- The result of `os.UserHomeDir()`. -/
  userHomeDir : Except String String
  /-- The result of `os.Environ()`. -/
  environ : List String
  /-- The error of `copyDir(src, dst)`, if any. -/
  copyDir : String → String → Option String
  /-- The error of running the command in `dir` with `argv` and `env`, if any. -/
  run : String → List String → List String → Option String
  /-- The decoded content of the file, or the error of opening, decoding or
  closing it. -/
  load : String → Except String (List condition)
  /-- The error of `os.RemoveAll(dir)`, if any. -/
  removeAll : String → Option String
  /-- The failure of the instrumenter on `(argDir, instrFile, instrDst)`, if any. -/
  instrumentErr : String → String → String → Option String

/-- Sequencing: the rest runs on the value and state of a call that returned. -/
def Outcome.bind {α β : Type} (o : Outcome α) (f : α → gobco → Outcome β) : Outcome β :=
  match o with
  | .ok a g => f a g
  | .exit c g => .exit c g
  | .panics m g => .panics m g

/-- The version string (`main.go`). -/
def version : String := "1.0.2-snapshot"

/-! ## `logger.go` -/

/-- Method `logger.outf` with the formatted message: the message and a newline go to
stdout. -/
def logger.outf (l : logger) (msg : String) : logger :=
  { l with stdout := l.stdout ++ msg ++ "\n" }

/-- Method `logger.errf` with the formatted message: the message goes to stderr as it
is. -/
def logger.errf (l : logger) (msg : String) : logger :=
  { l with stderr := l.stderr ++ msg }

/-- Method `logger.verbosef`: `errf` when verbose. -/
def logger.verbosef (l : logger) (msg : String) : logger :=
  if l.verbose then l.errf msg else l

/-- Method `logger.outf` through the embedded logger. -/
def gobco.outf (g : gobco) (msg : String) : gobco :=
  { g with logger := g.logger.outf msg }

/-- Method `logger.errf` through the embedded logger. -/
def gobco.errf (g : gobco) (msg : String) : gobco :=
  { g with logger := g.logger.errf msg }

/-- Method `logger.verbosef` through the embedded logger. -/
def gobco.verbosef (g : gobco) (msg : String) : gobco :=
  { g with logger := g.logger.verbosef msg }

/-- Method `logger.check` through the embedded logger: an error is written to stderr
and the process exits with code 1. -/
def gobco.check (g : gobco) : Option String → Outcome Unit
  | none => .ok () g
  | some err => .exit 1 (g.errf err)

/-! ## `buildenv.go` -/

/-- Method `buildEnv.init`, on the build environment and logger embedded in `g`. -/
def buildEnv.init (sys : Sys) (g : gobco) : Outcome Unit :=
  let tmpdir := Join sys.tempDir ("gobco-" ++ sys.randomHexInit)
  let g := { g with events := g.events ++ [Event.mkdirAll tmpdir] }
  (g.check (sys.mkdirAll tmpdir)).bind fun _ g =>
    let g := g.verbosef ("The temporary working directory is " ++ tmpdir)
    .ok () { g with buildEnv := { tmpdir := tmpdir } }

/-- Method `buildEnv.file`: the path below the temporary directory. -/
def buildEnv.file (e : buildEnv) (rel : String) : String :=
  Join e.tmpdir (FromSlash rel)

/-- Method `buildEnv.file` through the embedded build environment. -/
def gobco.file (g : gobco) (rel : String) : String := g.buildEnv.file rel

/-! ## `gotest.go` -/

/-- Method `goTest.args`. -/
def goTest.args (verbose : Bool) (extraArgs : List String) : List String :=
  let args := ["go", "test"]
  let args := if verbose then args ++ ["-v"] else args
  let args := args ++ ["-test.count", "1"]
  let args := args ++ ["."]
  let args := args ++ extraArgs
  args

/-- The loop of `goTest.env` over the parent environment. -/
def goTest.envLoop (gopaths : String) : List String → List String → List String
  | env, [] => env
  | env, envVar :: rest =>
    if gopaths = "" ∧ HasPrefix envVar "GOPATH=" = true then goTest.envLoop gopaths env rest
    else goTest.envLoop gopaths (env ++ [envVar]) rest

/-- Method `goTest.env`, with `environ` the result of `os.Environ()`. -/
def goTest.env (environ : List String) (tmpdir gopaths statsFilename : String) :
    List String :=
  let env := goTest.envLoop gopaths [] environ
  let env :=
    if gopaths ≠ "" then
      let gopathDir := Join tmpdir "gopath"
      let gopath := gopathDir ++ String.singleton ListSeparator ++ gopaths
      let env := env ++ ["GOPATH=" ++ gopath]
      env ++ ["GO111MODULE=off"]
    else env
  let env := env ++ ["GOBCO_STATS=" ++ statsFilename]
  env

/-- Method `goTest.run`: the exit code of the test run, and the state after it. The
output of the sub-process itself is not recorded. -/
def goTest.run (sys : Sys) (g : gobco) (arg : argInfo) (extraArgs : List String)
    (verbose : Bool) (gopaths statsFilename : String) : Int × gobco :=
  let args := goTest.args verbose extraArgs
  let dir := g.file arg.instrDir
  let env := goTest.env sys.environ g.buildEnv.tmpdir gopaths statsFilename
  let cmdline := stringsJoin args " "
  let g := g.verbosef ("Running " ++ sys.quote cmdline ++ " in " ++ sys.quote dir)
  let g := { g with events := g.events ++ [Event.goTest dir args env] }
  match sys.run dir args env with
  | some err => (1, g.errf err)
  | none => (0, g.verbosef ("Finished " ++ cmdline))

/-! ## `gobco.go` -/

/-- Method `gobco.parseOptions`, given what the flag package made of `argv[1:]`. A
failed parse has written its error and the usage text to stderr and set the
exit code 2 through `flags.Usage`. -/
def gobco.parseOptions (g : gobco) : FlagParse → Outcome (List String)
  | .failed err usageText =>
    let g := { g.errf (err ++ "\n" ++ usageText) with exitCode := 2 }
    if g.exitCode ≠ 0 then .exit g.exitCode g
    else (g.check (some err)).bind fun _ g => .ok [] g
  | .parsed help ver immediately keep listAll verbose coverTest stats test usageText rest =>
    let g := { g with
      immediately := immediately, keep := keep, listAll := listAll,
      statsFilename := stats, goTestArgs := test, coverTest := coverTest,
      logger := { g.logger with verbose := verbose } }
    if g.exitCode ≠ 0 then .exit g.exitCode g
    else if help then
      let g := { g with
        logger := { g.logger with stdout := g.logger.stdout ++ usageText }, exitCode := 2 }
      .exit 0 g
    else if ver then .exit 0 (g.outf version)
    else .ok rest g

/-- Method `gobco.gopaths`. -/
def gobco.gopaths (sys : Sys) (g : gobco) : Outcome String :=
  let gopaths := sys.getenvGOPATH
  if gopaths ≠ "" then .ok gopaths g
  else
    match sys.userHomeDir with
    | .error err => (g.check (some err)).bind fun _ g => .ok "" g
    | .ok home => .ok (Join home "go") g

/-- The loop of `gobco.findInGopath` over the entries of the GOPATH list. -/
def gobco.findInGopathLoop (g : gobco) (abs : Path) : List String → Outcome String
  | [] => .ok "" g
  | gopath :: rest =>
    match Rel (parsePath gopath) abs with
    | .error err => (g.check (some err)).bind fun _ g => .ok "" g
    | .ok rel =>
      if HasPrefix rel "src" then .ok rel g
      else gobco.findInGopathLoop g abs rest

/-- Method `gobco.findInGopath`. -/
def gobco.findInGopath (sys : Sys) (g : gobco) (arg : String) : Outcome String :=
  (g.gopaths sys).bind fun gopaths g =>
    let abs := AbsPath sys.cwd arg
    g.findInGopathLoop abs (SplitList gopaths)

/-- One round of the loop of `gobco.findInModule`, up to the return inside the
`if`: with `abs` the path of the elements `rev` (last one first), the result when
`go.mod` is found in `abs`, and nothing when it is not. -/
def gobco.findInModuleAt (sys : Sys) (g : gobco) (dir : String) (absDir : Path)
    (rev : List String) : Option (Outcome (String × String)) :=
  let abs : Path := { rooted := absDir.rooted, elems := rev.reverse }
  if sys.lstatOk (Join abs.toString "go.mod") then
    match Rel abs absDir with
    | .error err => some ((g.check (some err)).bind fun _ g => .ok ("", "") g)
    | .ok rel =>
      let root := if rel = "." then dir else abs.toString
      some (.ok (root, rel) g)
  else none

/-- The loop of `gobco.findInModule`. The variable `abs` is held as the elements
of the cleaned path, last one first: `filepath.Dir(abs)` drops the last element,
and is `abs` itself exactly when no element is left. -/
def gobco.findInModuleLoop (sys : Sys) (g : gobco) (dir : String) (absDir : Path) :
    List String → Outcome (String × String)
  | [] =>
    match g.findInModuleAt sys dir absDir [] with
    | some r => r
    | none => .ok ("", "") g
  | e :: up =>
    match g.findInModuleAt sys dir absDir (e :: up) with
    | some r => r
    | none => gobco.findInModuleLoop sys g dir absDir up

/-- Method `gobco.findInModule`. -/
def gobco.findInModule (sys : Sys) (g : gobco) (dir : String) : Outcome (String × String) :=
  let absDir := AbsPath sys.cwd dir
  g.findInModuleLoop sys dir absDir absDir.elems.reverse

/-- Method `gobco.classify`. -/
def gobco.classify (sys : Sys) (g : gobco) (arg : String) : Outcome argInfo :=
  let isDir := sys.isDir arg
  let dir := if !isDir then Dir arg else arg
  let base := if !isDir then Base arg else ""
  (g.findInModule sys dir).bind fun (moduleRoot, moduleRel) g =>
    if moduleRoot ≠ "" then
      let copyDst := "module-" ++ sys.randomHexClassify
      let packageDir := Join copyDst moduleRel
      let g := { g with osStdout := g.osStdout ++
        ("==============" ++ " " ++ moduleRoot ++ " " ++ copyDst ++ " " ++ packageDir ++ "\n") }
      .ok { arg := arg, argDir := dir, module := true, copySrc := moduleRoot,
            copyDst := copyDst, instrFile := base, instrDir := packageDir } g
    else
      (g.findInGopath sys dir).bind fun relDir g =>
        if relDir ≠ "" then
          let relDir := Join "gopath" relDir
          .ok { arg := arg, argDir := dir, module := false, copySrc := dir,
                copyDst := relDir, instrFile := base, instrDir := relDir } g
        else
          (g.check (some ("error: argument " ++ sys.quote arg ++ " must be inside GOPATH"))).bind
            fun _ g => .panics "unreachable" g

/-- The loop of `gobco.parseArgs` over the arguments. -/
def gobco.parseArgsLoop (sys : Sys) (g : gobco) : List String → Outcome Unit
  | [] => .ok () g
  | arg :: rest =>
    let arg := FromSlash arg
    (g.classify sys arg).bind fun info g =>
      gobco.parseArgsLoop sys { g with args := g.args ++ [info] } rest

/-- Method `gobco.parseArgs`. -/
def gobco.parseArgs (sys : Sys) (g : gobco) (args : List String) : Outcome Unit :=
  let args := if args.length = 0 then ["."] else args
  if args.length > 1 then .panics "gobco: checking multiple packages doesn't work yet" g
  else g.parseArgsLoop sys args

/-- Method `gobco.parseCommandLine`. -/
def gobco.parseCommandLine (sys : Sys) (g : gobco) (argv : FlagParse) : Outcome Unit :=
  (g.parseOptions argv).bind fun args g => g.parseArgs sys args

/-- The loop of `gobco.prepareTmp` over the arguments. -/
def gobco.prepareTmpLoop (sys : Sys) (g : gobco) : List argInfo → Outcome Unit
  | [] => .ok () g
  | arg :: rest =>
    let dstDir := g.file arg.copyDst
    let g := { g with events := g.events ++ [Event.copyDir arg.copySrc dstDir] }
    (g.check (sys.copyDir arg.copySrc dstDir)).bind fun _ g =>
      gobco.prepareTmpLoop sys g rest

/-- Method `gobco.prepareTmp`. -/
def gobco.prepareTmp (sys : Sys) (g : gobco) : Outcome Unit :=
  let g :=
    if g.statsFilename ≠ "" then { g with statsFilename := Abs sys.cwd g.statsFilename }
    else { g with statsFilename := g.file "gobco-counts.json" }
  g.prepareTmpLoop sys g.args

/-- Modelled from the spec: the instrumentation engine (`instrumenter.instrument`)
is not among these files. Its call is recorded as an effect, and a failure of it
is fatal: it is reported and the run is aborted with exit code 1. -/
def instrumenter.instrument (sys : Sys) (g : gobco) (immediately listAll coverTest : Bool)
    (argDir instrFile instrDst : String) : Outcome Unit :=
  let g := { g with events := g.events ++
    [Event.instrument immediately listAll coverTest argDir instrFile instrDst] }
  g.check (sys.instrumentErr argDir instrFile instrDst)

/-- The loop of `gobco.instrument` over the arguments. -/
def gobco.instrumentLoop (sys : Sys) (g : gobco) : List argInfo → Outcome Unit
  | [] => .ok () g
  | arg :: rest =>
    let instrDst := g.file arg.instrDir
    (instrumenter.instrument sys g g.immediately g.listAll g.coverTest
        arg.argDir arg.instrFile instrDst).bind fun _ g =>
      let g := g.verbosef ("Instrumented " ++ arg.arg ++ " to " ++ instrDst)
      gobco.instrumentLoop sys g rest

/-- Method `gobco.instrument`. -/
def gobco.instrument (sys : Sys) (g : gobco) : Outcome Unit :=
  g.instrumentLoop sys g.args

/-- The loop of `gobco.runGoTest` over the arguments. -/
def gobco.runGoTestLoop (sys : Sys) (g : gobco) : List argInfo → Outcome Unit
  | [] => .ok () g
  | arg :: rest =>
    let gopaths : Outcome String := if !arg.module then g.gopaths sys else .ok "" g
    gopaths.bind fun gopaths g =>
      let r := goTest.run sys g arg g.goTestArgs g.logger.verbose gopaths g.statsFilename
      gobco.runGoTestLoop sys { r.2 with exitCode := r.1 } rest

/-- Method `gobco.runGoTest`. -/
def gobco.runGoTest (sys : Sys) (g : gobco) : Outcome Unit :=
  g.runGoTestLoop sys g.args

/-- Method `gobco.load`. -/
def gobco.load (sys : Sys) (g : gobco) (filename : String) : Outcome (List condition) :=
  match sys.load filename with
  | .error err => (g.check (some err)).bind fun _ g => .ok [] g
  | .ok data => .ok data g

/-- The local function `capped` of `gobco.printCond`. -/
def capped (count : Int) : Int :=
  if count > 1 then 2
  else if count = 1 then 1
  else 0

/-- Method `gobco.printCond`. -/
def gobco.printCond (sys : Sys) (g : gobco) (cond : condition) : gobco :=
  let trueCount := cond.TrueCount
  let falseCount := cond.FalseCount
  let start := cond.Start
  let code := cond.Code
  if !g.listAll ∧ trueCount > 0 ∧ falseCount > 0 then g
  else
    let k := 3 * capped trueCount + capped falseCount
    if k = 0 then
      g.outf (start ++ ": condition " ++ sys.quote code ++ " was never evaluated")
    else if k = 1 then
      g.outf (start ++ ": condition " ++ sys.quote code ++ " was once false but never true")
    else if k = 2 then
      g.outf (start ++ ": condition " ++ sys.quote code ++ " was " ++ fmtD falseCount
        ++ " times false but never true")
    else if k = 3 then
      g.outf (start ++ ": condition " ++ sys.quote code ++ " was once true but never false")
    else if k = 4 then
      g.outf (start ++ ": condition " ++ sys.quote code ++ " was once true and once false")
    else if k = 5 then
      g.outf (start ++ ": condition " ++ sys.quote code ++ " was once true and "
        ++ fmtD falseCount ++ " times false")
    else if k = 6 then
      g.outf (start ++ ": condition " ++ sys.quote code ++ " was " ++ fmtD trueCount
        ++ " times true but never false")
    else if k = 7 then
      g.outf (start ++ ": condition " ++ sys.quote code ++ " was " ++ fmtD trueCount
        ++ " times true and once false")
    else
      g.outf (start ++ ": condition " ++ sys.quote code ++ " was " ++ fmtD trueCount
        ++ " times true and " ++ fmtD falseCount ++ " times false")

/-- The first loop of `gobco.printOutput`: the counter after the conditions. -/
def gobco.countLoop : Int → List condition → Int
  | cnt, [] => cnt
  | cnt, c :: rest =>
    let cnt := if c.TrueCount > 0 then cnt + 1 else cnt
    let cnt := if c.FalseCount > 0 then cnt + 1 else cnt
    gobco.countLoop cnt rest

/-- The second loop of `gobco.printOutput`. -/
def gobco.printCondLoop (sys : Sys) : gobco → List condition → gobco
  | g, [] => g
  | g, cond :: rest => gobco.printCondLoop sys (g.printCond sys cond) rest

/-- Method `gobco.printOutput`. -/
def gobco.printOutput (sys : Sys) (g : gobco) : Outcome Unit :=
  (g.load sys g.statsFilename).bind fun conds g =>
    let cnt := gobco.countLoop 0 conds
    let g := g.outf ""
    let g := g.outf ("Branch coverage: " ++ fmtD cnt ++ "/" ++ fmtD ((conds.length : Int) * 2))
    .ok () (gobco.printCondLoop sys g conds)

/-- Method `gobco.cleanUp`. -/
def gobco.cleanUp (sys : Sys) (g : gobco) : gobco :=
  if g.keep then
    let g := g.errf ""
    g.errf ("the temporary files are in " ++ g.buildEnv.tmpdir)
  else
    let g := { g with events := g.events ++ [Event.removeAll g.buildEnv.tmpdir] }
    match sys.removeAll g.buildEnv.tmpdir with
    | some err => g.verbosef err
    | none => g

/-- Function `newGobco`: the zero value with the two writers, empty so far, then
`buildEnv.init`. -/
def newGobco (sys : Sys) : Outcome Unit :=
  let g : gobco :=
    { listAll := false, immediately := false, keep := false, coverTest := false,
      goTestArgs := [], args := [], statsFilename := "", exitCode := 0,
      logger := { stdout := "", stderr := "", verbose := false },
      buildEnv := { tmpdir := "" }, osStdout := "", events := [] }
  buildEnv.init sys g

/-! ## `main.go` -/

/-- Function `gobcoMain`: the call of `cleanUp` is commented out in the source. -/
def gobcoMain (sys : Sys) (argv : FlagParse) : Outcome Int :=
  (newGobco sys).bind fun _ g =>
  (g.parseCommandLine sys argv).bind fun _ g =>
  (g.prepareTmp sys).bind fun _ g =>
  (g.instrument sys).bind fun _ g =>
  (g.runGoTest sys).bind fun _ g =>
  (g.printOutput sys).bind fun _ g =>
  .ok g.exitCode g

/-- Function `main`: the process exits with the code `gobcoMain` returns. -/
def main (sys : Sys) (argv : FlagParse) : Outcome Int :=
  (gobcoMain sys argv).bind fun code g => .exit code g

/-! ## The report as the specification words it -/

/-- A count capped to 0, 1 or many. -/
inductive Cap where
  | zero
  | one
  | many
deriving DecidableEq, Repr

/-- The cap of a count: many when it is above 1, one when it is 1, zero
otherwise. -/
def capOf (n : Int) : Cap :=
  if n > 1 then .many else if n = 1 then .one else .zero

/-- The number the code uses for a cap. -/
def Cap.toInt : Cap → Int
  | .zero => 0
  | .one => 1
  | .many => 2

/-- The wording for a condition with `t` true and `f` false evaluations, by the
pair of the capped counts. -/
def specPhrase (t f : Int) : String :=
  match capOf t, capOf f with
  | .zero, .zero => "never evaluated"
  | .zero, .one => "once false but never true"
  | .zero, .many => fmtD f ++ " times false but never true"
  | .one, .zero => "once true but never false"
  | .one, .one => "once true and once false"
  | .one, .many => "once true and " ++ fmtD f ++ " times false"
  | .many, .zero => fmtD t ++ " times true but never false"
  | .many, .one => fmtD t ++ " times true and once false"
  | .many, .many => fmtD t ++ " times true and " ++ fmtD f ++ " times false"

/-- The detail line of a condition, without the newline. -/
def specLine (quote : String → String) (c : condition) : String :=
  c.Start ++ ": condition " ++ quote c.Code ++ " was " ++ specPhrase c.TrueCount c.FalseCount

/-- Whether a condition is in the detail listing: always with `listAll`,
otherwise unless both outcomes were seen. -/
def specListed (listAll : Bool) (c : condition) : Bool :=
  listAll || !(decide (c.TrueCount > 0) && decide (c.FalseCount > 0))

/-- The number of (condition, outcome) pairs with a count above zero. -/
def specEvaluated (conds : List condition) : Nat :=
  conds.countP (fun c => decide (c.TrueCount > 0)) + conds.countP (fun c => decide (c.FalseCount > 0))

/-- The text of the summary line, without the newline. -/
def specSummary (conds : List condition) : String :=
  "Branch coverage: " ++ toString (specEvaluated conds) ++ "/" ++ toString (2 * conds.length)

/-- The strings of a list, one after the other. -/
def concatStrings : List String → String
  | [] => ""
  | a :: rest => a ++ concatStrings rest

/-- The detail listing: one line for each listed condition, in the order of the
sequence. -/
def specDetails (quote : String → String) (listAll : Bool) (conds : List condition) : String :=
  concatStrings ((conds.filter (specListed listAll)).map (fun c => specLine quote c ++ "\n"))

/-- A stand-in for `strconv.Quote` that is right for text without quotes,
backslashes and control characters. -/
def plainQuote (s : String) : String := "\"" ++ s ++ "\""

/-- A system for the examples: the working directory /home/u/proj/sub inside the
module /home/u/proj, the GOPATH /gp, and a results file with three conditions. -/
def sampleSys : Sys where
  quote := plainQuote
  cwd := "/home/u/proj/sub"
  tempDir := "/tmp"
  randomHexInit := "0123abcd"
  randomHexClassify := "89abcdef"
  mkdirAll := fun _ => none
  isDir := fun p => p = "." || p = "/gp/srcfoo" || p = "/gp/src/x" || p = "/other/x"
  lstatOk := fun p => p = "/home/u/proj/go.mod"
  getenvGOPATH := "/gp"
  userHomeDir := .ok "/home/u"
  environ := ["PATH=/bin", "GOPATH=/gp"]
  copyDir := fun _ _ => none
  run := fun _ _ _ => none
  load := fun _ =>
    .ok [⟨"a.go:1:1", "x>0", 0, 0⟩, ⟨"a.go:2:1", "y>0", 2, 5⟩, ⟨"a.go:3:1", "z", 3, 0⟩]
  removeAll := fun _ => none
  instrumentErr := fun _ _ _ => none

/-- The workspace roots `findInGopath` goes through: the entries of GOPATH, or
of the default below the home directory when GOPATH is not set. -/
def Sys.gopathList (sys : Sys) : List String :=
  if sys.getenvGOPATH ≠ "" then SplitList sys.getenvGOPATH
  else
    match sys.userHomeDir with
    | .error _ => []
    | .ok home => SplitList (Join home "go")

/-- The state after `newGobco` when the temporary directory could be created. -/
def startState (sys : Sys) : gobco :=
  { listAll := false, immediately := false, keep := false, coverTest := false,
    goTestArgs := [], args := [], statsFilename := "", exitCode := 0,
    logger := { stdout := "", stderr := "", verbose := false },
    buildEnv := { tmpdir := Join sys.tempDir ("gobco-" ++ sys.randomHexInit) },
    osStdout := "",
    events := [Event.mkdirAll (Join sys.tempDir ("gobco-" ++ sys.randomHexInit))] }

/-- The directory that `classify` looks up for the argument: the argument when
it is a directory, else its parent. -/
def argDirOf (sys : Sys) (arg : String) : String :=
  if sys.isDir arg then arg else Dir arg

/-- No directory at or above `dir` holds a go.mod, and the path of `dir`
relative to each workspace root does not start with "src". -/
def inNoLayout (sys : Sys) (dir : String) : Prop :=
  (∀ p : List String, p <+: (AbsPath sys.cwd dir).elems →
      sys.lstatOk (Join (Path.toString ⟨(AbsPath sys.cwd dir).rooted, p⟩) "go.mod") = false)
    ∧ (∀ gopath ∈ sys.gopathList, ∀ rel : String,
        Rel (parsePath gopath) (AbsPath sys.cwd dir) = .ok rel → HasPrefix rel "src" = false)

/-- An element of a cleaned rooted path: not empty, not "." and not "..", and
without a separator in it. -/
def plainElem (e : String) : Prop := e ≠ "" ∧ e ≠ "." ∧ e ≠ ".." ∧ '/' ∉ e.data

/-- No directory has been removed so far. -/
def gobco.NoRemove (g : gobco) : Prop := ∀ d : String, Event.removeAll d ∉ g.events

/-- A command line without flags, with the positional arguments `rest`. -/
def plainArgs (rest : List String) : FlagParse :=
  .parsed false false false false false false false "" [] "" rest

/-- The command line `-keep` with the positional arguments `rest`. -/
def keepArgs (rest : List String) : FlagParse :=
  .parsed false false false true false false false "" [] "" rest

/-- The sample system with the results file of one condition, never evaluated. -/
def sampleSysOne : Sys :=
  { sampleSys with load := fun _ => .ok [⟨"a.go:1:1", "x>0", 0, 0⟩] }

/-- The sample system with two workspace roots, the second one below the first. -/
def sampleSysTwoRoots : Sys :=
  { sampleSys with getenvGOPATH := "/gp:/gp/srcfoo" }

/-- A state for the examples: nothing written yet. -/
def sampleGobco (listAll : Bool) : gobco :=
  { listAll := listAll, immediately := false, keep := false, coverTest := false,
    goTestArgs := [], args := [], statsFilename := "/tmp/gobco-0123abcd/gobco-counts.json",
    exitCode := 0, logger := { stdout := "", stderr := "", verbose := false },
    buildEnv := { tmpdir := "/tmp/gobco-0123abcd" }, osStdout := "", events := [] }

/-! ## Facts about the library functions -/

theorem HasPrefix_append_self (p s : String) : HasPrefix (p ++ s) p = true := by
  simp [HasPrefix, String.data_append]

theorem HasPrefix_stats (s : String) : HasPrefix ("GOBCO_STATS=" ++ s) "GOPATH=" = false := by
  simp [HasPrefix, String.data_append, List.isPrefixOf]

theorem HasPrefix_module (s : String) : HasPrefix ("module-" ++ s) "gopath/" = false := by
  simp [HasPrefix, String.data_append, List.isPrefixOf]

/-! ## The test command: its arguments and its environment -/

theorem goTest.envLoop_eq (gopaths : String) (environ : List String) :
    ∀ env : List String, goTest.envLoop gopaths env environ =
      env ++ environ.filter (fun e => !(decide (gopaths = "") && HasPrefix e "GOPATH=")) := by
  induction environ with
  | nil => intro env; simp [goTest.envLoop]
  | cons e rest ih =>
    intro env
    by_cases h : gopaths = "" ∧ HasPrefix e "GOPATH=" = true
    · have h2 : (!(decide (gopaths = "") && HasPrefix e "GOPATH=")) = false := by
        simp [h.1, h.2]
      rw [goTest.envLoop, if_pos h, ih]
      simp only [List.filter_cons, h2, Bool.false_eq_true, if_false]
    · have h2 : (!(decide (gopaths = "") && HasPrefix e "GOPATH=")) = true := by
        rcases Decidable.not_and_iff_or_not_not.mp h with h1 | h1
        · simp [h1]
        · simp [h1]
      rw [goTest.envLoop, if_neg h, ih]
      simp only [List.filter_cons, h2, if_true, List.append_assoc, List.singleton_append]

/-- C9: `goTest.args` returns "go", "test", then "-v" exactly when verbose is
set, then the pair "-test.count", "1", then the target ".", then the passthrough
flags unchanged and in order. So the passthrough flags are the final elements,
and "-test.count" occurs once more than it occurs among the passthrough flags. -/
theorem goTest.args_layout (verbose : Bool) (extraArgs : List String) :
    goTest.args verbose extraArgs =
        ["go", "test"] ++ (if verbose then ["-v"] else []) ++ ["-test.count", "1"] ++ ["."]
          ++ extraArgs
      ∧ (goTest.args verbose extraArgs).drop
          ((goTest.args verbose extraArgs).length - extraArgs.length) = extraArgs
      ∧ (goTest.args verbose extraArgs).count "-test.count"
          = 1 + extraArgs.count "-test.count"
      ∧ ((goTest.args verbose extraArgs).contains "-v"
          = (verbose || extraArgs.contains "-v")) := by
  have e : goTest.args verbose extraArgs =
      (["go", "test"] ++ (if verbose then ["-v"] else []) ++ ["-test.count", "1"] ++ ["."])
        ++ extraArgs := by
    cases verbose <;> rfl
  refine ⟨e, ?_, ?_, ?_⟩
  · rw [e, List.length_append, Nat.add_sub_cancel]
    exact List.drop_left _ _
  · rw [e]
    cases verbose <;> simp [List.count_cons] <;> omega
  · rw [e]
    cases verbose <;> simp

/-- C3, as the claim states it, fails: with the module layout (gopaths = "") the
GOPATH entry of the parent environment is not in the environment of the test
run. -/
theorem goTest.env_module_drops_GOPATH :
    goTest.env ["PATH=/bin", "GOPATH=/home/u/go"] "/tmp/gobco-0123abcd" ""
        "/tmp/gobco-0123abcd/gobco-counts.json"
      = ["PATH=/bin", "GOBCO_STATS=/tmp/gobco-0123abcd/gobco-counts.json"]
    ∧ HasPrefix "GOPATH=/home/u/go" "GOPATH=" = true
    ∧ "GOPATH=/home/u/go" ∈ ["PATH=/bin", "GOPATH=/home/u/go"]
    ∧ "GOPATH=/home/u/go" ∉
        goTest.env ["PATH=/bin", "GOPATH=/home/u/go"] "/tmp/gobco-0123abcd" ""
          "/tmp/gobco-0123abcd/gobco-counts.json" := by
  decide

/-- C3, amended: with the module layout (gopaths = "") `goTest.env` returns the
parent environment without its entries that start with "GOPATH=", the other
entries unchanged and in order, followed by the entry of the results file. No
entry of the result starts with "GOPATH=". -/
theorem goTest.env_module (environ : List String) (tmpdir statsFilename : String) :
    goTest.env environ tmpdir "" statsFilename
        = environ.filter (fun e => !HasPrefix e "GOPATH=") ++ ["GOBCO_STATS=" ++ statsFilename]
      ∧ (∀ e ∈ goTest.env environ tmpdir "" statsFilename, HasPrefix e "GOPATH=" = false)
      ∧ (∀ e ∈ environ, HasPrefix e "GOPATH=" = false →
          e ∈ goTest.env environ tmpdir "" statsFilename) := by
  have h : goTest.env environ tmpdir "" statsFilename
      = environ.filter (fun e => !HasPrefix e "GOPATH=") ++ ["GOBCO_STATS=" ++ statsFilename] := by
    simp [goTest.env, goTest.envLoop_eq]
  refine ⟨h, ?_, ?_⟩
  · intro e he
    rw [h] at he
    rcases List.mem_append.mp he with he | he
    · simpa using (List.mem_filter.mp he).2
    · rw [List.mem_singleton.mp he]
      exact HasPrefix_stats statsFilename
  · intro e he hp
    rw [h]
    exact List.mem_append_left _ (List.mem_filter.mpr ⟨he, by simp [hp]⟩)

/-- C4: with the flat-workspace layout (gopaths not empty) `goTest.env` returns
the entries of the parent environment in their order, followed by exactly three
entries: the GOPATH of the workspace-local root and then the original roots, the
module mode switched off, and the results file. Each of the three is the last
entry of its variable in the result. -/
theorem goTest.env_gopath (environ : List String) (tmpdir gopaths statsFilename : String)
    (h : gopaths ≠ "") :
    goTest.env environ tmpdir gopaths statsFilename
        = environ ++
          ["GOPATH=" ++ (Join tmpdir "gopath" ++ String.singleton ListSeparator ++ gopaths),
           "GO111MODULE=off",
           "GOBCO_STATS=" ++ statsFilename]
      ∧ ((goTest.env environ tmpdir gopaths statsFilename).filter
            (fun e => HasPrefix e "GOPATH=")).getLast?
          = some ("GOPATH=" ++ (Join tmpdir "gopath" ++ String.singleton ListSeparator ++ gopaths))
      ∧ ((goTest.env environ tmpdir gopaths statsFilename).filter
            (fun e => HasPrefix e "GO111MODULE=")).getLast? = some "GO111MODULE=off"
      ∧ ((goTest.env environ tmpdir gopaths statsFilename).filter
            (fun e => HasPrefix e "GOBCO_STATS=")).getLast?
          = some ("GOBCO_STATS=" ++ statsFilename) := by
  have e1 : goTest.env environ tmpdir gopaths statsFilename
      = environ ++
          ["GOPATH=" ++ (Join tmpdir "gopath" ++ String.singleton ListSeparator ++ gopaths),
           "GO111MODULE=off",
           "GOBCO_STATS=" ++ statsFilename] := by
    simp [goTest.env, goTest.envLoop_eq, h]
  have p1 : ∀ s : String, HasPrefix ("GOPATH=" ++ s) "GOPATH=" = true :=
    fun s => HasPrefix_append_self _ _
  have p2 : ∀ s : String, HasPrefix ("GOBCO_STATS=" ++ s) "GOBCO_STATS=" = true :=
    fun s => HasPrefix_append_self _ _
  have p3 : ∀ s : String, HasPrefix ("GOPATH=" ++ s) "GO111MODULE=" = false := by
    intro s; simp [HasPrefix, String.data_append, List.isPrefixOf]
  have p4 : ∀ s : String, HasPrefix ("GOPATH=" ++ s) "GOBCO_STATS=" = false := by
    intro s; simp [HasPrefix, String.data_append, List.isPrefixOf]
  have p5 : ∀ s : String, HasPrefix ("GOBCO_STATS=" ++ s) "GO111MODULE=" = false := by
    intro s; simp [HasPrefix, String.data_append, List.isPrefixOf]
  have p6 : HasPrefix "GO111MODULE=off" "GOPATH=" = false := by decide
  have p7 : HasPrefix "GO111MODULE=off" "GO111MODULE=" = true := by decide
  have p8 : HasPrefix "GO111MODULE=off" "GOBCO_STATS=" = false := by decide
  refine ⟨e1, ?_, ?_, ?_⟩
  · rw [e1, List.filter_append]
    simp [List.filter_cons, p1, p6, HasPrefix_stats, List.getLast?_append]
  · rw [e1, List.filter_append]
    simp [List.filter_cons, p3, p7, p5, List.getLast?_append]
  · rw [e1, List.filter_append]
    simp [List.filter_cons, p4, p8, p2, List.getLast?_append]

/-- C4 at a parent environment that already defines the three variables. -/
theorem goTest.env_gopath_witness :
    "/home/u/go" ≠ "" ∧
    goTest.env ["GOPATH=/home/u/go", "GOBCO_STATS=old.json", "PATH=/bin"] "/tmp/gobco-0123abcd"
        "/home/u/go" "/tmp/gobco-0123abcd/gobco-counts.json"
      = ["GOPATH=/home/u/go", "GOBCO_STATS=old.json", "PATH=/bin",
         "GOPATH=/tmp/gobco-0123abcd/gopath:/home/u/go", "GO111MODULE=off",
         "GOBCO_STATS=/tmp/gobco-0123abcd/gobco-counts.json"] :=
  ⟨by decide,
   (goTest.env_gopath ["GOPATH=/home/u/go", "GOBCO_STATS=old.json", "PATH=/bin"]
      "/tmp/gobco-0123abcd" "/home/u/go" "/tmp/gobco-0123abcd/gobco-counts.json"
      (by decide)).1.trans (by decide)⟩

/-! ## The coverage report -/

theorem capped_eq_toInt (n : Int) : capped n = (capOf n).toInt := by
  unfold capped capOf
  split_ifs <;> rfl

theorem fmtD_natCast (n : Nat) : fmtD (n : Int) = toString n := rfl

theorem gobco.printCond_eq (sys : Sys) (g : gobco) (cond : condition)
    (h : specListed g.listAll cond = true) :
    g.printCond sys cond = g.outf (specLine sys.quote cond) := by
  have hguard : ¬ ((!g.listAll) = true ∧ cond.TrueCount > 0 ∧ cond.FalseCount > 0) := by
    intro ⟨h1, h2, h3⟩
    simp [specListed, h2, h3] at h
    simp [h] at h1
  have e1 : ∀ x : String, " was " ++ ("once true and " ++ x) = " was once true and " ++ x := by
    intro x
    rw [← String.append_assoc]
    rfl
  unfold gobco.printCond
  simp only [if_neg hguard, capped_eq_toInt, specLine, specPhrase]
  cases capOf cond.TrueCount <;> cases capOf cond.FalseCount <;>
    simp [Cap.toInt, String.append_assoc, e1]

theorem gobco.printCond_suppressed (sys : Sys) (g : gobco) (cond : condition)
    (h : specListed g.listAll cond = false) :
    g.printCond sys cond = g := by
  have hguard : (!g.listAll) = true ∧ cond.TrueCount > 0 ∧ cond.FalseCount > 0 := by
    simpa [specListed, and_assoc] using h
  unfold gobco.printCond
  simp only [if_pos hguard]

theorem gobco.printCond_listAll (sys : Sys) (g : gobco) (cond : condition) :
    (g.printCond sys cond).listAll = g.listAll := by
  cases h : specListed g.listAll cond
  · rw [gobco.printCond_suppressed sys g cond h]
  · rw [gobco.printCond_eq sys g cond h]
    rfl

theorem gobco.printCondLoop_eq (sys : Sys) (conds : List condition) :
    ∀ g : gobco, gobco.printCondLoop sys g conds =
      { g with logger :=
          { g.logger with stdout := g.logger.stdout ++ specDetails sys.quote g.listAll conds } } := by
  induction conds with
  | nil =>
    intro g
    simp [gobco.printCondLoop, specDetails, concatStrings]
  | cons c rest ih =>
    intro g
    rw [gobco.printCondLoop, ih, gobco.printCond_listAll]
    cases h : specListed g.listAll c
    · rw [gobco.printCond_suppressed sys g c h]
      simp [specDetails, List.filter_cons, h]
    · rw [gobco.printCond_eq sys g c h]
      simp [specDetails, List.filter_cons, h, concatStrings, gobco.outf, logger.outf,
        String.append_assoc]

theorem gobco.countLoop_eq (conds : List condition) :
    ∀ cnt : Int, gobco.countLoop cnt conds = cnt + (specEvaluated conds : Nat) := by
  induction conds with
  | nil => intro cnt; simp [gobco.countLoop, specEvaluated]
  | cons c rest ih =>
    intro cnt
    rw [gobco.countLoop]
    simp only [ih, specEvaluated, List.countP_cons]
    split_ifs <;> simp_all <;> omega

theorem specEvaluated_le (conds : List condition) : specEvaluated conds ≤ 2 * conds.length := by
  have h1 := List.countP_le_length (fun c : condition => decide (c.TrueCount > 0)) (l := conds)
  have h2 := List.countP_le_length (fun c : condition => decide (c.FalseCount > 0)) (l := conds)
  unfold specEvaluated
  omega

theorem gobco.printOutput_eq (sys : Sys) (g : gobco) (conds : List condition)
    (hload : sys.load g.statsFilename = .ok conds) :
    g.printOutput sys = .ok ()
      { g with logger :=
          { g.logger with stdout := g.logger.stdout ++ "\n" ++ specSummary conds ++ "\n"
              ++ specDetails sys.quote g.listAll conds } } := by
  have hD : ((conds.length : Int) * 2) = ((2 * conds.length : Nat) : Int) := by
    push_cast
    ring
  unfold gobco.printOutput gobco.load
  simp only [hload, Outcome.bind, gobco.printCondLoop_eq, gobco.countLoop_eq, hD, zero_add,
    fmtD_natCast]
  simp [gobco.outf, logger.outf, specSummary, String.append_assoc]

/-- C5: for a condition that is not suppressed (`listAll` is set, or one of the
outcomes was never seen), `printCond` writes exactly one line to stdout and does
nothing else: the start, ": condition ", the quoted code, " was " and the phrase
that the pair of the capped counts fixes. The number the code switches on is
3 times the cap of the true count plus the cap of the false count, and two pairs
of caps with the same number are the same pair: the nine cases exclude each
other and leave no case out. This holds for all counts, the non-negative ones
among them. -/
theorem gobco.printCond_nine_cases (sys : Sys) (g : gobco) (cond : condition)
    (h : g.listAll = true ∨ ¬ (cond.TrueCount > 0 ∧ cond.FalseCount > 0)) :
    g.printCond sys cond
        = g.outf (cond.Start ++ ": condition " ++ sys.quote cond.Code ++ " was "
            ++ specPhrase cond.TrueCount cond.FalseCount)
      ∧ (g.printCond sys cond).logger.stdout
        = g.logger.stdout
            ++ (cond.Start ++ ": condition " ++ sys.quote cond.Code ++ " was "
              ++ specPhrase cond.TrueCount cond.FalseCount)
            ++ "\n"
      ∧ 3 * capped cond.TrueCount + capped cond.FalseCount
        = 3 * (capOf cond.TrueCount).toInt + (capOf cond.FalseCount).toInt
      ∧ (∀ a b c d : Cap, 3 * a.toInt + b.toInt = 3 * c.toInt + d.toInt → a = c ∧ b = d) := by
  have hl : specListed g.listAll cond = true := by
    rcases h with h | h
    · simp [specListed, h]
    · have h2 : ¬ (cond.TrueCount > 0) ∨ ¬ (cond.FalseCount > 0) :=
        Decidable.not_and_iff_or_not_not.mp h
      rcases h2 with h2 | h2 <;> simp [specListed, h2]
  have e := gobco.printCond_eq sys g cond hl
  refine ⟨e, ?_, ?_, ?_⟩
  · rw [e]
    rfl
  · rw [capped_eq_toInt, capped_eq_toInt]
  · intro a b c d
    cases a <;> cases b <;> cases c <;> cases d <;> simp [Cap.toInt]

/-- C5 at the three conditions of the specification: never evaluated, three
times true and never false, and once each way with `listAll` set. -/
theorem gobco.printCond_nine_cases_witness :
    ((sampleGobco false).printCond sampleSys ⟨"a.go:1:1", "x>0", 0, 0⟩).logger.stdout
        = "a.go:1:1: condition \"x>0\" was never evaluated\n"
      ∧ ((sampleGobco false).printCond sampleSys ⟨"a.go:3:1", "z", 3, 0⟩).logger.stdout
        = "a.go:3:1: condition \"z\" was 3 times true but never false\n"
      ∧ ((sampleGobco true).printCond sampleSys ⟨"a.go:4:1", "w", 1, 1⟩).logger.stdout
        = "a.go:4:1: condition \"w\" was once true and once false\n" :=
  ⟨(gobco.printCond_nine_cases sampleSys (sampleGobco false) ⟨"a.go:1:1", "x>0", 0, 0⟩
      (Or.inr (by decide))).2.1.trans (by decide),
   (gobco.printCond_nine_cases sampleSys (sampleGobco false) ⟨"a.go:3:1", "z", 3, 0⟩
      (Or.inr (by decide))).2.1.trans (by decide),
   (gobco.printCond_nine_cases sampleSys (sampleGobco true) ⟨"a.go:4:1", "w", 1, 1⟩
      (Or.inl rfl)).2.1.trans (by decide)⟩

/-- C6: when the results file loads as `conds`, `printOutput` returns, and what
it wrote to stdout is an empty line, then the summary line "Branch coverage: N/D",
then the detail lines. N is the number of conditions with a true count above zero
plus the number with a false count above zero, whatever `listAll` is, D is twice
the number of conditions, and N is at most D. -/
theorem gobco.printOutput_summary (sys : Sys) (g : gobco) (conds : List condition)
    (hload : sys.load g.statsFilename = .ok conds) :
    ∃ g1 : gobco, ∃ details : String,
      g.printOutput sys = .ok () g1
      ∧ g1.logger.stdout
        = g.logger.stdout ++ "\n"
          ++ ("Branch coverage: "
              ++ toString (conds.countP (fun c => decide (c.TrueCount > 0))
                  + conds.countP (fun c => decide (c.FalseCount > 0)))
              ++ "/" ++ toString (2 * conds.length))
          ++ "\n" ++ details
      ∧ conds.countP (fun c => decide (c.TrueCount > 0))
          + conds.countP (fun c => decide (c.FalseCount > 0)) ≤ 2 * conds.length := by
  refine ⟨_, specDetails sys.quote g.listAll conds, gobco.printOutput_eq sys g conds hload,
    rfl, specEvaluated_le conds⟩

/-- C6 at the results file of the specification: one condition, never
evaluated, gives "Branch coverage: 0/2" and the detail line of a condition that
was never evaluated. -/
theorem gobco.printOutput_summary_witness :
    sampleSysOne.load (sampleGobco false).statsFilename = .ok [⟨"a.go:1:1", "x>0", 0, 0⟩]
      ∧ ∃ g1 : gobco, (sampleGobco false).printOutput sampleSysOne = .ok () g1
          ∧ g1.logger.stdout
            = "\nBranch coverage: 0/2\na.go:1:1: condition \"x>0\" was never evaluated\n" :=
  ⟨rfl,
   match gobco.printOutput_summary sampleSysOne (sampleGobco false)
      [⟨"a.go:1:1", "x>0", 0, 0⟩] rfl with
   | ⟨g1, _, h1, _, _⟩ =>
     ⟨g1, h1, by
       have h2 := gobco.printOutput_eq sampleSysOne (sampleGobco false)
         [⟨"a.go:1:1", "x>0", 0, 0⟩] rfl
       rw [h2] at h1
       injection h1 with _ h3
       rw [← h3]
       decide⟩⟩

/-- C7: when the results file loads as `conds`, the text `printOutput` writes
after the summary line is one line for each condition that satisfies
`listAll or not (TrueCount > 0 and FalseCount > 0)`, in the order of `conds`:
without `listAll` the conditions with both outcomes seen are left out and all
others are listed, with `listAll` every condition is listed. -/
theorem gobco.printOutput_details (sys : Sys) (g : gobco) (conds : List condition)
    (hload : sys.load g.statsFilename = .ok conds) :
    ∃ g1 : gobco,
      g.printOutput sys = .ok () g1
      ∧ g1.logger.stdout
        = g.logger.stdout ++ "\n" ++ specSummary conds ++ "\n"
          ++ concatStrings
              ((conds.filter
                  (fun c => g.listAll || !(decide (c.TrueCount > 0) && decide (c.FalseCount > 0)))).map
                (fun c => specLine sys.quote c ++ "\n"))
      ∧ (g.listAll = true →
          conds.filter
            (fun c => g.listAll || !(decide (c.TrueCount > 0) && decide (c.FalseCount > 0)))
            = conds)
      ∧ (g.listAll = false →
          conds.filter
            (fun c => g.listAll || !(decide (c.TrueCount > 0) && decide (c.FalseCount > 0)))
            = conds.filter (fun c => !(decide (c.TrueCount > 0) && decide (c.FalseCount > 0)))) := by
  refine ⟨_, gobco.printOutput_eq sys g conds hload, rfl, ?_, ?_⟩
  · intro h
    simp [h]
  · intro h
    simp [h]

/-- C7 at a results file of three conditions, the second one with both outcomes
seen (2 times true, 5 times false): it is left out without `listAll` and listed
with it, and the order is the one of the file. -/
theorem gobco.printOutput_details_witness :
    (∃ g1 : gobco, (sampleGobco false).printOutput sampleSys = .ok () g1
        ∧ g1.logger.stdout
          = "\nBranch coverage: 3/6\n"
            ++ "a.go:1:1: condition \"x>0\" was never evaluated\n"
            ++ "a.go:3:1: condition \"z\" was 3 times true but never false\n")
      ∧ (∃ g1 : gobco, (sampleGobco true).printOutput sampleSys = .ok () g1
        ∧ g1.logger.stdout
          = "\nBranch coverage: 3/6\n"
            ++ "a.go:1:1: condition \"x>0\" was never evaluated\n"
            ++ "a.go:2:1: condition \"y>0\" was 2 times true and 5 times false\n"
            ++ "a.go:3:1: condition \"z\" was 3 times true but never false\n") :=
  ⟨match gobco.printOutput_details sampleSys (sampleGobco false) _ rfl with
   | ⟨g1, h1, h2, _⟩ => ⟨g1, h1, h2.trans (by decide)⟩,
   match gobco.printOutput_details sampleSys (sampleGobco true) _ rfl with
   | ⟨g1, h1, h2, _⟩ => ⟨g1, h1, h2.trans (by decide)⟩⟩

/-! ## The life of the temporary directory -/

theorem Outcome.noRemove_bind {α β : Type} (o : Outcome α) (f : α → gobco → Outcome β)
    (ho : o.state.NoRemove) (hf : ∀ a g, g.NoRemove → (f a g).state.NoRemove) :
    (o.bind f).state.NoRemove := by
  cases o with
  | ok a g => exact hf a g ho
  | exit c g => exact ho
  | panics m g => exact ho

theorem gobco.noRemove_check (g : gobco) (err : Option String) (h : g.NoRemove) :
    (g.check err).state.NoRemove := by
  cases err <;> exact h

theorem gobco.noRemove_push (g : gobco) (e : Event) (he : ∀ d, e ≠ Event.removeAll d)
    (h : g.NoRemove) : gobco.NoRemove { g with events := g.events ++ [e] } := by
  intro d hd
  rcases List.mem_append.mp hd with hd | hd
  · exact h d hd
  · exact he d (List.mem_singleton.mp hd).symm

theorem newGobco_noRemove (sys : Sys) : (newGobco sys).state.NoRemove := by
  unfold newGobco buildEnv.init
  refine Outcome.noRemove_bind _ _ (gobco.noRemove_check _ _ ?_) ?_
  · intro d hd
    simp at hd
  · intro _ g hg
    exact hg

theorem gobco.noRemove_parseOptions (g : gobco) (argv : FlagParse) (h : g.NoRemove) :
    (g.parseOptions argv).state.NoRemove := by
  cases argv with
  | failed err usageText =>
    simp only [gobco.parseOptions]
    split_ifs
    · exact h
    · exact Outcome.noRemove_bind _ _ (gobco.noRemove_check _ _ h) (fun _ _ hg => hg)
  | parsed help ver immediately keep listAll verbose coverTest stats test usageText rest =>
    simp only [gobco.parseOptions]
    split_ifs <;> exact h

theorem gobco.noRemove_gopaths (sys : Sys) (g : gobco) (h : g.NoRemove) :
    (g.gopaths sys).state.NoRemove := by
  unfold gobco.gopaths
  simp only
  split_ifs
  · exact h
  · split
    · exact Outcome.noRemove_bind _ _ (gobco.noRemove_check _ _ h) (fun _ _ hg => hg)
    · exact h

theorem gobco.noRemove_findInGopathLoop (g : gobco) (abs : Path) (h : g.NoRemove) :
    ∀ roots : List String, (g.findInGopathLoop abs roots).state.NoRemove := by
  intro roots
  induction roots with
  | nil => exact h
  | cons gopath rest ih =>
    rw [gobco.findInGopathLoop]
    split
    · exact Outcome.noRemove_bind _ _ (gobco.noRemove_check _ _ h) (fun _ _ hg => hg)
    · split_ifs
      · exact h
      · exact ih

theorem gobco.noRemove_findInGopath (sys : Sys) (g : gobco) (arg : String) (h : g.NoRemove) :
    (g.findInGopath sys arg).state.NoRemove :=
  Outcome.noRemove_bind _ _ (gobco.noRemove_gopaths sys g h)
    (fun _ g1 hg => gobco.noRemove_findInGopathLoop g1 _ hg _)

theorem gobco.noRemove_findInModuleAt (sys : Sys) (g : gobco) (dir : String) (absDir : Path)
    (rev : List String) (h : g.NoRemove) :
    ∀ r, g.findInModuleAt sys dir absDir rev = some r → r.state.NoRemove := by
  intro r hr
  unfold gobco.findInModuleAt at hr
  simp only at hr
  split_ifs at hr
  split at hr
  · injection hr with hr
    rw [← hr]
    exact Outcome.noRemove_bind _ _ (gobco.noRemove_check _ _ h) (fun _ _ hg => hg)
  · injection hr with hr
    rw [← hr]
    exact h

theorem gobco.noRemove_findInModuleLoop (sys : Sys) (g : gobco) (dir : String) (absDir : Path)
    (h : g.NoRemove) :
    ∀ rev : List String, (g.findInModuleLoop sys dir absDir rev).state.NoRemove := by
  intro rev
  induction rev with
  | nil =>
    rw [gobco.findInModuleLoop]
    split
    · exact gobco.noRemove_findInModuleAt sys g dir absDir [] h _ (by assumption)
    · exact h
  | cons e up ih =>
    rw [gobco.findInModuleLoop]
    split
    · exact gobco.noRemove_findInModuleAt sys g dir absDir (e :: up) h _ (by assumption)
    · exact ih

theorem gobco.noRemove_classify (sys : Sys) (g : gobco) (arg : String) (h : g.NoRemove) :
    (g.classify sys arg).state.NoRemove := by
  unfold gobco.classify
  refine Outcome.noRemove_bind _ _ (gobco.noRemove_findInModuleLoop sys g _ _ h _) ?_
  intro a g1 hg1
  obtain ⟨root, rel⟩ := a
  by_cases hm : root ≠ ""
  · simp only [if_pos hm]
    exact hg1
  · simp only [if_neg hm]
    refine Outcome.noRemove_bind _ _ (gobco.noRemove_findInGopath sys g1 _ hg1) ?_
    intro relDir g2 hg2
    by_cases hr : relDir ≠ ""
    · simp only [if_pos hr]
      exact hg2
    · simp only [if_neg hr]
      exact Outcome.noRemove_bind _ _ (gobco.noRemove_check _ _ hg2) (fun _ _ hg => hg)

theorem gobco.noRemove_parseArgsLoop (sys : Sys) (args : List String) :
    ∀ g : gobco, g.NoRemove → (g.parseArgsLoop sys args).state.NoRemove := by
  induction args with
  | nil => intro g h; exact h
  | cons arg rest ih =>
    intro g h
    rw [gobco.parseArgsLoop]
    exact Outcome.noRemove_bind _ _ (gobco.noRemove_classify sys g _ h)
      (fun _ g1 hg1 => ih _ hg1)

theorem gobco.noRemove_parseCommandLine (sys : Sys) (g : gobco) (argv : FlagParse)
    (h : g.NoRemove) : (g.parseCommandLine sys argv).state.NoRemove := by
  unfold gobco.parseCommandLine
  refine Outcome.noRemove_bind _ _ (gobco.noRemove_parseOptions g argv h) ?_
  intro args g1 hg1
  unfold gobco.parseArgs
  simp only
  by_cases hl : (if args.length = 0 then ["."] else args).length > 1
  · simp only [if_pos hl]
    exact hg1
  · simp only [if_neg hl]
    exact gobco.noRemove_parseArgsLoop sys _ g1 hg1

theorem gobco.noRemove_prepareTmpLoop (sys : Sys) (args : List argInfo) :
    ∀ g : gobco, g.NoRemove → (g.prepareTmpLoop sys args).state.NoRemove := by
  induction args with
  | nil => intro g h; exact h
  | cons arg rest ih =>
    intro g h
    rw [gobco.prepareTmpLoop]
    refine Outcome.noRemove_bind _ _ (gobco.noRemove_check _ _ ?_) (fun _ g1 hg1 => ih _ hg1)
    exact gobco.noRemove_push g _ (fun d hd => by cases hd) h

theorem gobco.noRemove_instrumentLoop (sys : Sys) (args : List argInfo) :
    ∀ g : gobco, g.NoRemove → (g.instrumentLoop sys args).state.NoRemove := by
  induction args with
  | nil => intro g h; exact h
  | cons arg rest ih =>
    intro g h
    rw [gobco.instrumentLoop]
    refine Outcome.noRemove_bind _ _ (gobco.noRemove_check _ _ ?_) (fun _ g1 hg1 => ih _ hg1)
    exact gobco.noRemove_push g _ (fun d hd => by cases hd) h

theorem goTest.noRemove_run (sys : Sys) (g : gobco) (arg : argInfo) (extraArgs : List String)
    (verbose : Bool) (gopaths statsFilename : String) (h : g.NoRemove) :
    (goTest.run sys g arg extraArgs verbose gopaths statsFilename).2.NoRemove := by
  unfold goTest.run
  simp only
  have h2 := gobco.noRemove_push
    (g.verbosef ("Running " ++ sys.quote (stringsJoin (goTest.args verbose extraArgs) " ")
      ++ " in " ++ sys.quote (g.file arg.instrDir)))
    (Event.goTest (g.file arg.instrDir) (goTest.args verbose extraArgs)
      (goTest.env sys.environ g.buildEnv.tmpdir gopaths statsFilename))
    (fun d hd => by cases hd) h
  split
  · exact h2
  · exact h2

theorem gobco.noRemove_runGoTestLoop (sys : Sys) (args : List argInfo) :
    ∀ g : gobco, g.NoRemove → (g.runGoTestLoop sys args).state.NoRemove := by
  induction args with
  | nil => intro g h; exact h
  | cons arg rest ih =>
    intro g h
    rw [gobco.runGoTestLoop]
    have hgp : (if (!arg.module) = true then g.gopaths sys else Outcome.ok "" g).state.NoRemove := by
      split_ifs
      · exact gobco.noRemove_gopaths sys g h
      · exact h
    refine Outcome.noRemove_bind _ _ hgp ?_
    intro gopaths g1 hg1
    exact ih _ (goTest.noRemove_run sys g1 arg _ _ gopaths _ hg1)

theorem gobco.noRemove_printOutput (sys : Sys) (g : gobco) (h : g.NoRemove) :
    (g.printOutput sys).state.NoRemove := by
  unfold gobco.printOutput
  refine Outcome.noRemove_bind _ _ ?_ ?_
  · unfold gobco.load
    split
    · exact Outcome.noRemove_bind _ _ (gobco.noRemove_check _ _ h) (fun _ _ hg => hg)
    · exact h
  · intro conds g1 hg1
    simp only [gobco.printCondLoop_eq]
    exact hg1

theorem gobcoMain_noRemove (sys : Sys) (argv : FlagParse) :
    (gobcoMain sys argv).state.NoRemove := by
  unfold gobcoMain
  refine Outcome.noRemove_bind _ _ (newGobco_noRemove sys) ?_
  intro _ g0 h0
  refine Outcome.noRemove_bind _ _ (gobco.noRemove_parseCommandLine sys g0 argv h0) ?_
  intro _ g1 h1
  refine Outcome.noRemove_bind _ _ ?_ ?_
  · unfold gobco.prepareTmp
    simp only
    split_ifs
    · exact gobco.noRemove_prepareTmpLoop sys _ _ h1
    · exact gobco.noRemove_prepareTmpLoop sys _ _ h1
  intro _ g2 h2
  refine Outcome.noRemove_bind _ _ (gobco.noRemove_instrumentLoop sys _ g2 h2) ?_
  intro _ g3 h3
  refine Outcome.noRemove_bind _ _ (gobco.noRemove_runGoTestLoop sys _ g3 h3) ?_
  intro _ g4 h4
  refine Outcome.noRemove_bind _ _ (gobco.noRemove_printOutput sys g4 h4) ?_
  intro _ g5 h5
  exact h5

/-- C10 fails on the code: `gobcoMain` never calls `cleanUp`. No run of
`gobcoMain`, whatever the system and the command line, removes a directory. In
the sample run without `-keep` that reaches its end, the temporary directory
/tmp/gobco-0123abcd is created and still there at the end; in the sample run
with `-keep` nothing is reported on stderr. `cleanUp` itself, had it been
called at the end of these runs, removes the directory in the first and reports
its path in the second. -/
theorem gobcoMain_never_cleans_up :
    (∀ (sys : Sys) (argv : FlagParse) (d : String),
        Event.removeAll d ∉ (gobcoMain sys argv).state.events)
      ∧ (gobcoMain sampleSys (plainArgs ["."])).returned = true
      ∧ (gobcoMain sampleSys (plainArgs ["."])).state.keep = false
      ∧ (gobcoMain sampleSys (plainArgs ["."])).state.buildEnv.tmpdir = "/tmp/gobco-0123abcd"
      ∧ Event.mkdirAll "/tmp/gobco-0123abcd" ∈ (gobcoMain sampleSys (plainArgs ["."])).state.events
      ∧ Event.removeAll "/tmp/gobco-0123abcd" ∉ (gobcoMain sampleSys (plainArgs ["."])).state.events
      ∧ (gobco.cleanUp sampleSys (gobcoMain sampleSys (plainArgs ["."])).state).events
          = (gobcoMain sampleSys (plainArgs ["."])).state.events
            ++ [Event.removeAll "/tmp/gobco-0123abcd"]
      ∧ (gobcoMain sampleSys (keepArgs ["."])).returned = true
      ∧ (gobcoMain sampleSys (keepArgs ["."])).state.keep = true
      ∧ (gobcoMain sampleSys (keepArgs ["."])).state.logger.stderr = ""
      ∧ (gobco.cleanUp sampleSys (gobcoMain sampleSys (keepArgs ["."])).state).logger.stderr
          = "the temporary files are in /tmp/gobco-0123abcd" := by
  refine ⟨fun sys argv d => gobcoMain_noRemove sys argv d, ?_⟩
  decide

/-! ## Errors of the command line -/

theorem newGobco_ok (sys : Sys)
    (hmk : sys.mkdirAll (Join sys.tempDir ("gobco-" ++ sys.randomHexInit)) = none) :
    newGobco sys = .ok () (startState sys) := by
  simp [newGobco, buildEnv.init, hmk, gobco.check, Outcome.bind, gobco.verbosef,
    logger.verbosef, startState]

theorem gobco.findInModuleLoop_none (sys : Sys) (g : gobco) (dir : String) (absDir : Path) :
    ∀ rev : List String,
      (∀ s : List String, s <:+ rev →
        sys.lstatOk (Join (Path.toString ⟨absDir.rooted, s.reverse⟩) "go.mod") = false) →
      g.findInModuleLoop sys dir absDir rev = .ok ("", "") g := by
  intro rev
  induction rev with
  | nil =>
    intro h
    have h0 := h [] (List.suffix_refl _)
    simp only [gobco.findInModuleLoop, gobco.findInModuleAt, h0, Bool.false_eq_true, if_false]
  | cons e up ih =>
    intro h
    have h0 := h (e :: up) (List.suffix_refl _)
    have hup := ih (fun s hs => h s (hs.trans (List.suffix_cons e up)))
    simp only [gobco.findInModuleLoop, gobco.findInModuleAt, h0, hup, Bool.false_eq_true,
      if_false]

theorem gobco.findInGopathLoop_none (g : gobco) (abs : Path) :
    ∀ roots : List String,
      (∀ gopath ∈ roots, ∀ rel : String,
        Rel (parsePath gopath) abs = .ok rel → HasPrefix rel "src" = false) →
      g.findInGopathLoop abs roots = .ok "" g
        ∨ ∃ err, g.findInGopathLoop abs roots = .exit 1 (g.errf err) := by
  intro roots
  induction roots with
  | nil => intro _; exact Or.inl rfl
  | cons gopath rest ih =>
    intro h
    rw [gobco.findInGopathLoop]
    cases hr : Rel (parsePath gopath) abs with
    | error err => exact Or.inr ⟨err, rfl⟩
    | ok rel =>
      have hp := h gopath (List.mem_cons_self _ _) rel hr
      simp only [hp, Bool.false_eq_true, if_false]
      exact ih (fun gp hgp => h gp (List.mem_cons_of_mem _ hgp))

theorem gobco.findInGopath_none (sys : Sys) (g : gobco) (dir : String)
    (h : ∀ gopath ∈ sys.gopathList, ∀ rel : String,
        Rel (parsePath gopath) (AbsPath sys.cwd dir) = .ok rel → HasPrefix rel "src" = false) :
    g.findInGopath sys dir = .ok "" g
      ∨ ∃ err, g.findInGopath sys dir = .exit 1 (g.errf err) := by
  unfold gobco.findInGopath gobco.gopaths
  unfold Sys.gopathList at h
  by_cases hg : sys.getenvGOPATH ≠ ""
  · simp only [if_pos hg, Outcome.bind] at h ⊢
    exact gobco.findInGopathLoop_none g _ _ h
  · simp only [if_neg hg] at h ⊢
    cases hh : sys.userHomeDir with
    | error err => exact Or.inr ⟨err, rfl⟩
    | ok home =>
      simp only [hh, Outcome.bind] at h ⊢
      exact gobco.findInGopathLoop_none g _ _ h

theorem gobco.classify_none (sys : Sys) (g : gobco) (arg : String)
    (h : inNoLayout sys (argDirOf sys arg)) :
    ∃ err, g.classify sys arg = .exit 1 (g.errf err) := by
  obtain ⟨h1, h2⟩ := h
  have hdir : (if (!sys.isDir arg) = true then Dir arg else arg) = argDirOf sys arg := by
    unfold argDirOf
    cases sys.isDir arg <;> rfl
  have hmod : g.findInModule sys (argDirOf sys arg) = .ok ("", "") g := by
    unfold gobco.findInModule
    apply gobco.findInModuleLoop_none
    intro s hs
    have hp : s.reverse <+: (AbsPath sys.cwd (argDirOf sys arg)).elems := by
      have := List.reverse_prefix.mpr hs
      rwa [List.reverse_reverse] at this
    exact h1 _ hp
  unfold gobco.classify
  simp only [hdir, hmod, Outcome.bind]
  rcases gobco.findInGopath_none sys g (argDirOf sys arg) h2 with h2 | ⟨err, h2⟩
  · refine ⟨"error: argument " ++ sys.quote arg ++ " must be inside GOPATH", ?_⟩
    simp [h2, gobco.check]
  · exact ⟨err, by simp [h2]⟩

theorem gobco.parseOptions_ok (g : gobco) (immediately keep listAll verbose coverTest : Bool)
    (stats : String) (test : List String) (usageText : String) (rest : List String)
    (h0 : g.exitCode = 0) :
    g.parseOptions
        (.parsed false false immediately keep listAll verbose coverTest stats test usageText rest)
      = .ok rest { g with
          immediately := immediately, keep := keep, listAll := listAll,
          statsFilename := stats, goTestArgs := test, coverTest := coverTest,
          logger := { g.logger with verbose := verbose } } := by
  simp [gobco.parseOptions, h0]

theorem sample_inNoLayout : inNoLayout sampleSys (argDirOf sampleSys "/other/x") := by
  have e1 : argDirOf sampleSys "/other/x" = "/other/x" := by decide
  have e2 : AbsPath sampleSys.cwd "/other/x" = ⟨true, ["other", "x"]⟩ := by decide
  have e3 : sampleSys.gopathList = ["/gp"] := by decide
  rw [e1]
  unfold inNoLayout
  rw [e2, e3]
  constructor
  · intro p hp
    have hp2 : p ∈ List.inits ["other", "x"] := (List.mem_inits p ["other", "x"]).mpr hp
    have hall : ∀ q ∈ List.inits ["other", "x"],
        sampleSys.lstatOk (Join (Path.toString ⟨true, q⟩) "go.mod") = false := by decide
    exact hall p hp2
  · intro gopath hg rel hrel
    rw [List.mem_singleton.mp hg] at hrel
    have e4 : Rel (parsePath "/gp") ⟨true, ["other", "x"]⟩ = .ok "../other/x" := by decide
    rw [e4] at hrel
    injection hrel with hrel
    rw [← hrel]
    decide

/-- C8, as the claim states it, fails: the single argument /other/x lies in no
module and under no GOPATH root, and the process ends with exit code 1, not 2. -/
theorem main_neither_layout_exit_code :
    inNoLayout sampleSys (argDirOf sampleSys "/other/x")
      ∧ main sampleSys (plainArgs ["/other/x"])
          = .exit 1 ((startState sampleSys).errf
              "error: argument \"/other/x\" must be inside GOPATH")
      ∧ (main sampleSys (plainArgs ["/other/x"])).status = 1
      ∧ (main sampleSys (plainArgs ["/other/x"])).status ≠ 2 :=
  ⟨sample_inNoLayout, by decide, by decide, by decide⟩

/-- C8, amended: when the start of the run and the flags are fine, the errors of
`parseArgs` and `classify` end the run before anything is staged or run, but not
with one exit code. With more than one positional argument `parseArgs` panics,
which ends the process with status 2. With a single argument (or none, which
stands for ".") whose directory has no go.mod at or above it and whose path
relative to each GOPATH root does not start with "src", the process ends with
exit code 1. In both cases the only effect so far is the creation of the
temporary directory: nothing was copied, instrumented or run, and no argument
was accepted. -/
theorem main_usage_errors (sys : Sys) (immediately keep listAll verbose coverTest : Bool)
    (stats : String) (test : List String) (usageText : String) (rest : List String)
    (hmk : sys.mkdirAll (Join sys.tempDir ("gobco-" ++ sys.randomHexInit)) = none) :
    (rest.length > 1 →
      ∃ g : gobco,
        main sys
            (.parsed false false immediately keep listAll verbose coverTest stats test usageText rest)
          = .panics "gobco: checking multiple packages doesn't work yet" g
        ∧ (main sys
            (.parsed false false immediately keep listAll verbose coverTest stats test usageText
              rest)).status = 2
        ∧ g.events = [Event.mkdirAll (Join sys.tempDir ("gobco-" ++ sys.randomHexInit))]
        ∧ g.args = [])
      ∧ (∀ arg : String, (if rest.length = 0 then ["."] else rest) = [arg] →
          inNoLayout sys (argDirOf sys arg) →
          ∃ g : gobco,
            main sys
                (.parsed false false immediately keep listAll verbose coverTest stats test
                  usageText rest)
              = .exit 1 g
            ∧ (main sys
                (.parsed false false immediately keep listAll verbose coverTest stats test
                  usageText rest)).status = 1
            ∧ g.events = [Event.mkdirAll (Join sys.tempDir ("gobco-" ++ sys.randomHexInit))]
            ∧ g.args = []) := by
  have hopt := gobco.parseOptions_ok (startState sys) immediately keep listAll verbose coverTest
    stats test usageText rest rfl
  constructor
  · intro hlen
    have hlen2 : (if rest.length = 0 then ["."] else rest).length > 1 := by
      have : rest.length ≠ 0 := by omega
      simp only [if_neg this]
      exact hlen
    have hmain : main sys
        (.parsed false false immediately keep listAll verbose coverTest stats test usageText rest)
        = .panics "gobco: checking multiple packages doesn't work yet"
            { startState sys with
              immediately := immediately, keep := keep, listAll := listAll,
              statsFilename := stats, goTestArgs := test, coverTest := coverTest,
              logger := { (startState sys).logger with verbose := verbose } } := by
      simp only [main, gobcoMain, newGobco_ok sys hmk, Outcome.bind, gobco.parseCommandLine, hopt,
        gobco.parseArgs, if_pos hlen2]
    refine ⟨_, hmain, ?_, rfl, rfl⟩
    rw [hmain]
    rfl
  · intro arg harg hno
    obtain ⟨err, hcl⟩ := gobco.classify_none sys
      { startState sys with
        immediately := immediately, keep := keep, listAll := listAll,
        statsFilename := stats, goTestArgs := test, coverTest := coverTest,
        logger := { (startState sys).logger with verbose := verbose } } arg hno
    have hmain : main sys
        (.parsed false false immediately keep listAll verbose coverTest stats test usageText rest)
        = .exit 1 (gobco.errf
            { startState sys with
              immediately := immediately, keep := keep, listAll := listAll,
              statsFilename := stats, goTestArgs := test, coverTest := coverTest,
              logger := { (startState sys).logger with verbose := verbose } } err) := by
      simp only [main, gobcoMain, newGobco_ok sys hmk, Outcome.bind, gobco.parseCommandLine, hopt,
        gobco.parseArgs, harg, gobco.parseArgsLoop, FromSlash, hcl]
      simp
    refine ⟨_, hmain, ?_, rfl, rfl⟩
    rw [hmain]
    rfl

/-- C8, amended, at the sample system: two positional arguments end in the
panic, the single argument /other/x ends in exit code 1. -/
theorem main_usage_errors_witness :
    (∃ g : gobco,
        main sampleSys (plainArgs ["a", "b"])
          = .panics "gobco: checking multiple packages doesn't work yet" g
        ∧ (main sampleSys (plainArgs ["a", "b"])).status = 2
        ∧ g.events = [Event.mkdirAll "/tmp/gobco-0123abcd"]
        ∧ g.args = [])
      ∧ (∃ g : gobco,
        main sampleSys (plainArgs ["/other/x"]) = .exit 1 g
        ∧ (main sampleSys (plainArgs ["/other/x"])).status = 1
        ∧ g.events = [Event.mkdirAll "/tmp/gobco-0123abcd"]
        ∧ g.args = []) :=
  ⟨(main_usage_errors sampleSys false false false false false "" [] "" ["a", "b"] rfl).1
      (by decide),
   (main_usage_errors sampleSys false false false false false "" [] "" ["/other/x"] rfl).2
      "/other/x" rfl sample_inNoLayout⟩

/-! ## Paths: splitting, joining and cleaning -/

theorem splitChars_ne_nil (sep : Char) (cs : List Char) : splitChars sep cs ≠ [] := by
  cases cs with
  | nil => simp [splitChars]
  | cons c cs =>
    rw [splitChars]
    split_ifs
    · simp
    · split <;> simp

theorem splitChars_noSep (sep : Char) (w : List Char) (h : sep ∉ w) :
    splitChars sep w = [w] := by
  induction w with
  | nil => rfl
  | cons c cs ih =>
    have hc : c ≠ sep := fun e => h (by simp [e])
    have hcs : sep ∉ cs := fun e => h (List.mem_cons_of_mem _ e)
    rw [splitChars, if_neg hc, ih hcs]

theorem splitChars_append (sep : Char) (w rest : List Char) (h : sep ∉ w) :
    splitChars sep (w ++ sep :: rest) = w :: splitChars sep rest := by
  induction w with
  | nil => simp [splitChars]
  | cons c cs ih =>
    have hc : c ≠ sep := fun e => h (by simp [e])
    have hcs : sep ∉ cs := fun e => h (List.mem_cons_of_mem _ e)
    rw [List.cons_append, splitChars, if_neg hc, ih hcs]

theorem splitChars_mem (sep : Char) (cs : List Char) :
    ∀ w ∈ splitChars sep cs, sep ∉ w := by
  induction cs with
  | nil => simp [splitChars]
  | cons c cs ih =>
    intro w hw
    rw [splitChars] at hw
    by_cases hc : c = sep
    · rw [if_pos hc] at hw
      rcases List.mem_cons.mp hw with hw | hw
      · rw [hw]; simp
      · exact ih w hw
    · rw [if_neg hc] at hw
      cases hs : splitChars sep cs with
      | nil => exact absurd hs (splitChars_ne_nil sep cs)
      | cons v vs =>
        rw [hs] at hw ih
        rcases List.mem_cons.mp hw with hw | hw
        · rw [hw]
          intro hm
          rcases List.mem_cons.mp hm with hm | hm
          · exact hc hm.symm
          · exact ih v (List.mem_cons_self _ _) hm
        · exact ih w (List.mem_cons_of_mem _ hw)

theorem splitOnChar_mem (sep : Char) (s : String) :
    ∀ e ∈ splitOnChar sep s, sep ∉ e.data := by
  intro e he
  unfold splitOnChar at he
  obtain ⟨w, hw, rfl⟩ := List.mem_map.mp he
  exact splitChars_mem sep s.data w hw

theorem splitOnChar_noSep (sep : Char) (s : String) (h : sep ∉ s.data) :
    splitOnChar sep s = [s] := by
  unfold splitOnChar
  rw [splitChars_noSep sep s.data h]
  rfl

theorem splitOnChar_append (sep : Char) (a s : String) (h : sep ∉ a.data) :
    splitOnChar sep (a ++ String.singleton sep ++ s) = a :: splitOnChar sep s := by
  unfold splitOnChar
  have e : (a ++ String.singleton sep ++ s).data = a.data ++ sep :: s.data := by
    simp [String.data_append, String.singleton]
  rw [e, splitChars_append sep a.data s.data h]
  rfl

theorem splitOnChar_slash (a s : String) (h : '/' ∉ a.data) :
    splitOnChar '/' (a ++ "/" ++ s) = a :: splitOnChar '/' s :=
  splitOnChar_append '/' a s h

theorem splitOnChar_join (es : List String) (hne : es ≠ [])
    (h : ∀ e ∈ es, '/' ∉ e.data) : splitOnChar '/' (stringsJoin es "/") = es := by
  induction es with
  | nil => exact absurd rfl hne
  | cons a rest ih =>
    cases rest with
    | nil =>
      simp only [stringsJoin]
      exact splitOnChar_noSep '/' a (h a (List.mem_cons_self _ _))
    | cons b rest =>
      have ih2 := ih (by simp) (fun e he => h e (List.mem_cons_of_mem _ he))
      rw [stringsJoin]
      rw [splitOnChar_slash a _ (h a (List.mem_cons_self _ _)), ih2]

theorem cleanElems_cons (rooted : Bool) (stack : List String) (e : String)
    (rest : List String) :
    cleanElems rooted stack (e :: rest) =
      if e = "" ∨ e = "." then cleanElems rooted stack rest
      else if e = ".." then
        match stack with
        | [] => if rooted then cleanElems rooted [] rest else cleanElems rooted [".."] rest
        | top :: below =>
          if top = ".." then cleanElems rooted (".." :: top :: below) rest
          else cleanElems rooted below rest
      else cleanElems rooted (e :: stack) rest := by
  cases stack <;> rfl

theorem cleanElems_plain (rooted : Bool) (es : List String) (h : ∀ e ∈ es, plainElem e) :
    ∀ stack : List String, cleanElems rooted stack es = stack.reverse ++ es := by
  induction es with
  | nil => intro stack; simp [cleanElems]
  | cons e rest ih =>
    intro stack
    obtain ⟨h1, h2, h3, _⟩ := h e (List.mem_cons_self _ _)
    have h12 : ¬ (e = "" ∨ e = ".") := fun h => h.elim h1 h2
    rw [cleanElems_cons, if_neg h12, if_neg h3, ih (fun x hx => h x (List.mem_cons_of_mem _ hx))]
    simp

theorem cleanElems_rooted_mem (es : List String) (h : ∀ e ∈ es, '/' ∉ e.data) :
    ∀ stack : List String, (∀ e ∈ stack, plainElem e) →
      ∀ e ∈ cleanElems true stack es, plainElem e := by
  induction es with
  | nil =>
    intro stack hs e he
    rw [cleanElems] at he
    exact hs e (List.mem_reverse.mp he)
  | cons x rest ih =>
    intro stack hs
    have hrest : ∀ e ∈ rest, '/' ∉ e.data := fun e he => h e (List.mem_cons_of_mem _ he)
    rw [cleanElems_cons]
    by_cases h12 : x = "" ∨ x = "."
    · rw [if_pos h12]
      exact ih hrest stack hs
    · rw [if_neg h12]
      by_cases h3 : x = ".."
      · rw [if_pos h3]
        cases stack with
        | nil =>
          simp only [if_true]
          exact ih hrest [] hs
        | cons top below =>
          have htop := hs top (List.mem_cons_self _ _)
          simp only [if_neg htop.2.2.1]
          exact ih hrest below (fun e he => hs e (List.mem_cons_of_mem _ he))
      · rw [if_neg h3]
        apply ih hrest
        intro e he
        rcases List.mem_cons.mp he with he | he
        · rw [he]
          exact ⟨fun c => h12 (Or.inl c), fun c => h12 (Or.inr c), h3,
            h x (List.mem_cons_self _ _)⟩
        · exact hs e he

theorem parsePath_rooted_mem (p : String) (hp : IsAbs p = true) :
    (parsePath p).rooted = true ∧ ∀ e ∈ (parsePath p).elems, plainElem e := by
  refine ⟨hp, ?_⟩
  unfold parsePath
  simp only [hp]
  exact cleanElems_rooted_mem _ (splitOnChar_mem '/' p) [] (by simp)

theorem IsAbs_append (a b : String) (h : IsAbs a = true) : IsAbs (a ++ b) = true := by
  unfold IsAbs at h ⊢
  rw [String.data_append]
  cases ha : a.data with
  | nil => simp [ha] at h
  | cons c cs => simpa [ha] using h

theorem AbsPath_mem (cwd p : String) (hcwd : IsAbs cwd = true) :
    (AbsPath cwd p).rooted = true ∧ ∀ e ∈ (AbsPath cwd p).elems, plainElem e := by
  unfold AbsPath
  by_cases hp : IsAbs p = true
  · rw [if_pos hp]
    exact parsePath_rooted_mem p hp
  · rw [if_neg hp]
    apply parsePath_rooted_mem
    rw [String.append_assoc]
    exact IsAbs_append _ _ hcwd

theorem stringsJoin_cons_ne (e : String) (es : List String) (he : e ≠ "") (sep : String) :
    stringsJoin (e :: es) sep ≠ "" := by
  cases es with
  | nil => simpa [stringsJoin] using he
  | cons b rest =>
    rw [stringsJoin]
    intro h
    have h2 := congrArg String.data h
    simp [String.data_append] at h2
    exact he (String.ext h2.1)

theorem stringsJoin_ne_dot (es : List String) (hne : es ≠ []) (h : ∀ e ∈ es, plainElem e) :
    stringsJoin es "/" ≠ "." := by
  cases es with
  | nil => exact absurd rfl hne
  | cons a rest =>
    cases rest with
    | nil =>
      simp only [stringsJoin]
      exact (h a (List.mem_cons_self _ _)).2.1
    | cons b rest =>
      rw [stringsJoin]
      intro hd
      have h2 : (a ++ "/" ++ stringsJoin (b :: rest) "/").data.length = (".").data.length :=
        congrArg (fun s : String => s.data.length) hd
      have ha : a.data ≠ [] := fun c => (h a (List.mem_cons_self _ _)).1 (String.ext c)
      have ha2 : 0 < a.data.length := List.length_pos.mpr ha
      have e1 : ("/" : String).data.length = 1 := rfl
      have e2 : ("." : String).data.length = 1 := rfl
      rw [String.data_append, String.data_append, List.length_append, List.length_append,
        e1, e2] at h2
      omega

theorem IsAbs_plain_append (c s : String) (hc : plainElem c) : IsAbs (c ++ s) = false := by
  unfold IsAbs
  rw [String.data_append]
  cases hd : c.data with
  | nil => exact absurd (String.ext hd) hc.1
  | cons x xs =>
    have hx : x ≠ '/' := by
      intro e
      apply hc.2.2.2
      rw [hd, e]
      exact List.mem_cons_self _ _
    simp [hx]

theorem Path.toString_unrooted_cons (c : String) (es : List String) :
    Path.toString ⟨false, c :: es⟩ = stringsJoin (c :: es) "/" := by
  simp [Path.toString]

theorem Join_dot (c : String) (hc : plainElem c) : Join c "." = c := by
  have hs : splitOnChar '/' (c ++ "/" ++ ".") = [c, "."] := by
    rw [splitOnChar_slash c "." hc.2.2.2]
    rfl
  have hcl : cleanElems false [] [c, "."] = [c] := by
    have h12 : ¬ (c = "" ∨ c = ".") := fun h => h.elim hc.1 hc.2.1
    rw [cleanElems_cons, if_neg h12, if_neg hc.2.2.1, cleanElems_cons, if_pos (Or.inr rfl)]
    rfl
  unfold Join
  rw [if_neg hc.1]
  unfold Clean parsePath
  rw [String.append_assoc, IsAbs_plain_append c _ hc, ← String.append_assoc, hs, hcl]
  rfl

theorem Join_offset (c : String) (off : List String) (hc : plainElem c) (hne : off ≠ [])
    (hoff : ∀ e ∈ off, plainElem e) :
    Join c (stringsJoin off "/") = stringsJoin (c :: off) "/" := by
  have hj : c ++ "/" ++ stringsJoin off "/" = stringsJoin (c :: off) "/" := by
    cases off with
    | nil => exact absurd rfl hne
    | cons b rest => rfl
  have hall : ∀ e ∈ c :: off, plainElem e := by
    intro e he
    rcases List.mem_cons.mp he with he | he
    · rw [he]; exact hc
    · exact hoff e he
  have hs : splitOnChar '/' (stringsJoin (c :: off) "/") = c :: off :=
    splitOnChar_join (c :: off) (by simp) (fun e he => (hall e he).2.2.2)
  unfold Join
  rw [if_neg hc.1]
  unfold Clean parsePath
  have hab : IsAbs (c ++ "/" ++ stringsJoin off "/") = false := by
    rw [String.append_assoc]
    exact IsAbs_plain_append c _ hc
  rw [hab, hj, hs, cleanElems_plain false (c :: off) hall []]
  exact Path.toString_unrooted_cons c off

theorem restOfBase_append (R off : List String) : restOfBase R (R ++ off) = [] := by
  induction R with
  | nil => cases off <;> rfl
  | cons a R ih => simp [restOfBase, ih]

theorem relElems_append (R off : List String) : relElems R (R ++ off) = off := by
  induction R with
  | nil => cases off <;> rfl
  | cons a R ih => simp [relElems, ih]

theorem Rel_below (rooted : Bool) (R off : List String) :
    Rel ⟨rooted, R⟩ ⟨rooted, R ++ off⟩
      = .ok (if off = [] then "." else stringsJoin off "/") := by
  unfold Rel
  by_cases h : off = []
  · simp [h]
  · have hne : (⟨rooted, R⟩ : Path) ≠ ⟨rooted, R ++ off⟩ := by
      intro e
      injection e with _ e2
      exact h (List.self_eq_append_right.mp e2)
    simp [hne, h, restOfBase_append, relElems_append]

theorem gobco.findInModuleAt_none (sys : Sys) (g : gobco) (dir : String) (absDir : Path)
    (rev : List String)
    (h : sys.lstatOk (Join (Path.toString ⟨absDir.rooted, rev.reverse⟩) "go.mod") = false) :
    g.findInModuleAt sys dir absDir rev = none := by
  simp only [gobco.findInModuleAt, h, Bool.false_eq_true, if_false]

theorem gobco.findInModuleLoop_at (sys : Sys) (g : gobco) (dir : String) (absDir : Path)
    (rev : List String) (r : Outcome (String × String))
    (h : g.findInModuleAt sys dir absDir rev = some r) :
    g.findInModuleLoop sys dir absDir rev = r := by
  cases rev <;> simp only [gobco.findInModuleLoop, h]

theorem gobco.findInModuleLoop_nearest (sys : Sys) (g : gobco) (dir : String) (absDir : Path)
    (base : List String) (r : Outcome (String × String))
    (hat : g.findInModuleAt sys dir absDir base = some r) :
    ∀ above : List String,
      (∀ s : List String, s <:+ above → s ≠ [] →
        g.findInModuleAt sys dir absDir (s ++ base) = none) →
      g.findInModuleLoop sys dir absDir (above ++ base) = r := by
  intro above
  induction above with
  | nil =>
    intro _
    exact gobco.findInModuleLoop_at sys g dir absDir base r hat
  | cons e up ih =>
    intro h
    have h0 := h (e :: up) (List.suffix_refl _) (by simp)
    have hup := ih (fun s hs hne => h s (hs.trans (List.suffix_cons e up)) hne)
    rw [List.cons_append] at h0 ⊢
    simp only [gobco.findInModuleLoop, h0, hup]

theorem cleanElems_ne_empty (rooted : Bool) (es : List String) :
    ∀ stack : List String, (∀ e ∈ stack, e ≠ "") →
      ∀ e ∈ cleanElems rooted stack es, e ≠ "" := by
  induction es with
  | nil =>
    intro stack hs e he
    rw [cleanElems] at he
    exact hs e (List.mem_reverse.mp he)
  | cons x rest ih =>
    intro stack hs
    rw [cleanElems_cons]
    by_cases h12 : x = "" ∨ x = "."
    · rw [if_pos h12]
      exact ih stack hs
    · rw [if_neg h12]
      by_cases h3 : x = ".."
      · rw [if_pos h3]
        cases stack with
        | nil =>
          cases rooted
          · exact ih [".."] (by simp)
          · exact ih [] hs
        | cons top below =>
          by_cases ht : top = ".."
          · simp only [if_pos ht]
            apply ih
            intro e he
            rcases List.mem_cons.mp he with he | he
            · rw [he]; decide
            · exact hs e he
          · simp only [if_neg ht]
            exact ih below (fun e he => hs e (List.mem_cons_of_mem _ he))
      · rw [if_neg h3]
        apply ih
        intro e he
        rcases List.mem_cons.mp he with he | he
        · rw [he]
          exact fun c => h12 (Or.inl c)
        · exact hs e he

theorem Path.toString_ne_empty (p : Path) (h : ∀ e ∈ p.elems, e ≠ "") : p.toString ≠ "" := by
  unfold Path.toString
  by_cases hr : p.rooted = true
  · rw [if_pos hr]
    intro c
    have c2 := congrArg String.data c
    simp [String.data_append] at c2
  · rw [if_neg hr]
    cases he : p.elems with
    | nil => simp
    | cons e es =>
      simp only [reduceCtorEq, if_false]
      exact stringsJoin_cons_ne e es (h e (by simp [he])) "/"

theorem Dir_ne_empty (p : String) : Dir p ≠ "" := by
  unfold Dir
  apply Path.toString_ne_empty
  exact cleanElems_ne_empty _ _ [] (by simp)

theorem argDirOf_ne_empty (sys : Sys) (arg : String) (hstat : sys.isDir "" = false) :
    argDirOf sys arg ≠ "" := by
  unfold argDirOf
  by_cases h : sys.isDir arg = true
  · rw [if_pos h]
    intro c
    rw [c, hstat] at h
    exact Bool.false_ne_true h
  · rw [if_neg h]
    exact Dir_ne_empty arg

theorem parsePath_toString_rooted (R : List String) (h : ∀ e ∈ R, plainElem e) :
    parsePath (Path.toString ⟨true, R⟩) = ⟨true, R⟩ := by
  have hs : Path.toString ⟨true, R⟩ = "" ++ "/" ++ stringsJoin R "/" := by
    simp [Path.toString]
  have hab : IsAbs ("" ++ "/" ++ stringsJoin R "/") = true := by
    rw [String.append_assoc]
    simp [IsAbs, String.data_append]
  rw [hs]
  unfold parsePath
  rw [hab, splitOnChar_slash "" _ (by simp)]
  cases R with
  | nil => rfl
  | cons a rest =>
    rw [splitOnChar_join (a :: rest) (by simp) (fun e he => (h e he).2.2.2), cleanElems_cons,
      if_pos (Or.inl rfl), cleanElems_plain true (a :: rest) h []]
    rfl

theorem plainElem_module (rnd : String)
    (hrnd : ∀ c ∈ rnd.data, c ∈ ("0123456789abcdef" : String).data) :
    plainElem ("module-" ++ rnd) := by
  refine ⟨?_, ?_, ?_, ?_⟩
  · intro c
    have c2 := congrArg String.data c
    simp [String.data_append] at c2
  · intro c
    have c2 := congrArg String.data c
    simp [String.data_append] at c2
  · intro c
    have c2 := congrArg String.data c
    simp [String.data_append] at c2
  · rw [String.data_append]
    intro hm
    rcases List.mem_append.mp hm with hm | hm
    · revert hm
      decide
    · have := hrnd _ hm
      revert this
      decide

/-! ## The location resolver -/

/-- C1: let `dir` be the argument when it is a directory and its parent
otherwise, and let the absolute path of `dir` be `R` followed by `off`, with a
go.mod in `R` and in no directory between `R` and `dir`, `dir` included. Then
`classify` returns, and: `module` is true; `copySrc` is `dir` itself when `dir`
is `R`, and the absolute path of `R` otherwise, so in both cases its absolute
path is `R`; `copyDst` is "module-" followed by the value of `randomHex(8)`,
which does not start with "gopath/"; `instrDir` is `Join(copyDst, rel)` with
`rel` the path of `dir` relative to `R`, and that is `copyDst` followed by the
elements of `off`; `instrFile` is the base name of a file argument and empty for
a directory. The only effect is the line `classify` prints to `os.Stdout`. -/
theorem gobco.classify_module (sys : Sys) (g : gobco) (arg : String) (R off : List String)
    (hstat : sys.isDir "" = false)
    (hcwd : IsAbs sys.cwd = true)
    (hrnd : ∀ c ∈ sys.randomHexClassify.data, c ∈ ("0123456789abcdef" : String).data)
    (habs : (AbsPath sys.cwd (argDirOf sys arg)).elems = R ++ off)
    (hmod : sys.lstatOk (Join (Path.toString ⟨true, R⟩) "go.mod") = true)
    (hnear : ∀ p : List String, p <+: off → p ≠ [] →
      sys.lstatOk (Join (Path.toString ⟨true, R ++ p⟩) "go.mod") = false) :
    ∃ (info : argInfo) (g1 : gobco),
      g.classify sys arg = .ok info g1
      ∧ info.arg = arg
      ∧ info.argDir = argDirOf sys arg
      ∧ info.module = true
      ∧ info.copySrc = (if off = [] then argDirOf sys arg else Path.toString ⟨true, R⟩)
      ∧ AbsPath sys.cwd info.copySrc = ⟨true, R⟩
      ∧ info.copyDst = "module-" ++ sys.randomHexClassify
      ∧ HasPrefix info.copyDst "gopath/" = false
      ∧ info.instrDir
          = Join info.copyDst (if off = [] then "." else stringsJoin off "/")
      ∧ Rel ⟨true, R⟩ (AbsPath sys.cwd (argDirOf sys arg))
          = .ok (if off = [] then "." else stringsJoin off "/")
      ∧ info.instrDir = stringsJoin (info.copyDst :: off) "/"
      ∧ info.instrFile = (if sys.isDir arg then "" else Base arg)
      ∧ g1 = { g with osStdout := g.osStdout ++
          ("==============" ++ " " ++ info.copySrc ++ " " ++ info.copyDst ++ " "
            ++ info.instrDir ++ "\n") } := by
  obtain ⟨hroot, hplain⟩ := AbsPath_mem sys.cwd (argDirOf sys arg) hcwd
  have hpath : AbsPath sys.cwd (argDirOf sys arg) = ⟨true, R ++ off⟩ := by
    cases hp : AbsPath sys.cwd (argDirOf sys arg) with
    | mk r es =>
      rw [hp] at hroot habs
      simp only at hroot habs
      rw [hroot, habs]
  have hR : ∀ e ∈ R, plainElem e := fun e he =>
    hplain e (by rw [habs]; exact List.mem_append_left _ he)
  have hoff : ∀ e ∈ off, plainElem e := fun e he =>
    hplain e (by rw [habs]; exact List.mem_append_right _ he)
  have hc := plainElem_module sys.randomHexClassify hrnd
  have hdirne := argDirOf_ne_empty sys arg hstat
  have hdir : (if (!sys.isDir arg) = true then Dir arg else arg) = argDirOf sys arg := by
    unfold argDirOf
    cases sys.isDir arg <;> rfl
  have hbase : (if (!sys.isDir arg) = true then Base arg else "")
      = (if sys.isDir arg then "" else Base arg) := by
    cases sys.isDir arg <;> rfl
  have hrel := Rel_below true R off
  -- the round of the loop at the module root
  have hat : g.findInModuleAt sys (argDirOf sys arg) (AbsPath sys.cwd (argDirOf sys arg))
      R.reverse
      = some (.ok (if off = [] then argDirOf sys arg else Path.toString ⟨true, R⟩,
          if off = [] then "." else stringsJoin off "/") g) := by
    unfold gobco.findInModuleAt
    rw [hpath]
    simp only [List.reverse_reverse, hmod, if_true, hrel]
    by_cases ho : off = []
    · simp [ho]
    · have hnd := stringsJoin_ne_dot off ho hoff
      simp [ho, hnd]
  -- the rounds below it find nothing
  have hnone : ∀ s : List String, s <:+ off.reverse → s ≠ [] →
      g.findInModuleAt sys (argDirOf sys arg) (AbsPath sys.cwd (argDirOf sys arg))
        (s ++ R.reverse) = none := by
    intro s hs hne
    apply gobco.findInModuleAt_none
    rw [hpath]
    simp only [List.reverse_append, List.reverse_reverse]
    apply hnear
    · have := List.reverse_prefix.mpr hs
      rwa [List.reverse_reverse] at this
    · intro c
      exact hne (List.reverse_eq_nil_iff.mp c)
  have hloop : g.findInModule sys (argDirOf sys arg)
      = .ok (if off = [] then argDirOf sys arg else Path.toString ⟨true, R⟩,
          if off = [] then "." else stringsJoin off "/") g := by
    unfold gobco.findInModule
    have hrev : (AbsPath sys.cwd (argDirOf sys arg)).elems.reverse = off.reverse ++ R.reverse := by
      rw [habs, List.reverse_append]
    simp only [hrev]
    exact gobco.findInModuleLoop_nearest sys g _ _ R.reverse _ hat off.reverse hnone
  have hrootne : (if off = [] then argDirOf sys arg else Path.toString ⟨true, R⟩) ≠ "" := by
    by_cases ho : off = []
    · simpa [ho] using hdirne
    · simp only [if_neg ho]
      exact Path.toString_ne_empty _ (fun e he => (hR e he).1)
  have hinstr : Join ("module-" ++ sys.randomHexClassify)
      (if off = [] then "." else stringsJoin off "/")
      = stringsJoin (("module-" ++ sys.randomHexClassify) :: off) "/" := by
    by_cases ho : off = []
    · simp only [if_pos ho, ho, stringsJoin]
      exact Join_dot _ hc
    · simp only [if_neg ho]
      exact Join_offset _ off hc ho hoff
  have hsrc : AbsPath sys.cwd (if off = [] then argDirOf sys arg else Path.toString ⟨true, R⟩)
      = ⟨true, R⟩ := by
    by_cases ho : off = []
    · simp only [if_pos ho]
      rw [hpath, ho, List.append_nil]
    · simp only [if_neg ho]
      have hp := parsePath_toString_rooted R hR
      have hab : IsAbs (Path.toString ⟨true, R⟩) = true := by
        have := congrArg Path.rooted hp
        simpa [parsePath] using this
      unfold AbsPath
      rw [if_pos hab, hp]
  refine ⟨{ arg := arg, argDir := argDirOf sys arg, module := true,
             copySrc := if off = [] then argDirOf sys arg else Path.toString ⟨true, R⟩,
             copyDst := "module-" ++ sys.randomHexClassify,
             instrFile := if sys.isDir arg then "" else Base arg,
             instrDir := Join ("module-" ++ sys.randomHexClassify)
               (if off = [] then "." else stringsJoin off "/") },
    _, ?_, rfl, rfl, rfl, rfl, hsrc, rfl, HasPrefix_module _, rfl, ?_, hinstr, rfl, rfl⟩
  · unfold gobco.classify
    simp only [hdir, hbase, hloop, Outcome.bind, if_pos hrootne]
  · rw [hpath]
    exact hrel

/-- C1 at the sample system, for the file x.go in /home/u/proj/sub of the module
/home/u/proj: the module root is copied to module-89abcdef, and the offset "sub"
of the directory below the root is the offset of `instrDir` below `copyDst`. -/
theorem gobco.classify_module_witness :
    ∃ (info : argInfo) (g1 : gobco),
      (sampleGobco false).classify sampleSys "x.go" = .ok info g1
      ∧ info.module = true
      ∧ info.argDir = "."
      ∧ info.copySrc = "/home/u/proj"
      ∧ info.copyDst = "module-89abcdef"
      ∧ info.instrDir = "module-89abcdef/sub"
      ∧ info.instrFile = "x.go" :=
  have hnear : ∀ p : List String, p <+: ["sub"] → p ≠ [] →
      sampleSys.lstatOk (Join (Path.toString ⟨true, ["home", "u", "proj"] ++ p⟩) "go.mod")
        = false := by
    intro p hp
    have hp2 : p ∈ List.inits ["sub"] := (List.mem_inits p ["sub"]).mpr hp
    have hall : ∀ q ∈ List.inits ["sub"], q ≠ [] →
        sampleSys.lstatOk (Join (Path.toString ⟨true, ["home", "u", "proj"] ++ q⟩) "go.mod")
          = false := by decide
    exact hall p hp2
  match gobco.classify_module sampleSys (sampleGobco false) "x.go" ["home", "u", "proj"] ["sub"]
      (by decide) (by decide) (by decide) (by decide) (by decide) hnear with
  | ⟨info, g1, h1, _, hdir, hm, hsrc, _, hdst, _, _, _, hinstr, hfile, _⟩ =>
    ⟨info, g1, h1, hm, hdir.trans (by decide), hsrc.trans (by decide), hdst,
      by rw [hinstr, hdst]; decide, hfile.trans (by decide)⟩

theorem gobco.findInGopathLoop_first (g : gobco) (abs : Path) (root rel : String)
    (post : List String) (hrel : Rel (parsePath root) abs = .ok rel)
    (hsrc : HasPrefix rel "src" = true) :
    ∀ pre : List String,
      (∀ gp ∈ pre, ∃ r, Rel (parsePath gp) abs = .ok r ∧ HasPrefix r "src" = false) →
      g.findInGopathLoop abs (pre ++ root :: post) = .ok rel g := by
  intro pre
  induction pre with
  | nil =>
    intro _
    simp only [List.nil_append, gobco.findInGopathLoop, hrel, hsrc, if_true]
  | cons gp pre ih =>
    intro h
    obtain ⟨r, hr1, hr2⟩ := h gp (List.mem_cons_self _ _)
    rw [List.cons_append, gobco.findInGopathLoop]
    simp only [hr1, hr2, Bool.false_eq_true, if_false]
    exact ih (fun x hx => h x (List.mem_cons_of_mem _ hx))

/-- C2 fails on the code: `findInGopath` takes the first root from which the
relative path of the directory starts with the characters "src", whether or not
the directory lies under the src directory of that root. With GOPATH=/gp the
directory /gp/srcfoo lies under no src directory, yet "srcfoo" is returned, not
"", and `classify` stages it as gopath/srcfoo. With GOPATH=/gp:/gp/srcfoo the
directory /gp/srcfoo/src/x lies under the src directory of the second root only,
yet the first root is taken and "srcfoo/src/x" is returned, not "src/x". -/
theorem gobco.findInGopath_takes_src_lookalike :
    sampleSys.gopathList = ["/gp"]
      ∧ AbsPath sampleSys.cwd "/gp/srcfoo" = ⟨true, ["gp", "srcfoo"]⟩
      ∧ parsePath (Join "/gp" "src") = ⟨true, ["gp", "src"]⟩
      ∧ ¬ (["gp", "src"] <+: ["gp", "srcfoo"])
      ∧ (sampleGobco false).findInGopath sampleSys "/gp/srcfoo"
          = .ok "srcfoo" (sampleGobco false)
      ∧ (sampleGobco false).classify sampleSys "/gp/srcfoo"
          = .ok { arg := "/gp/srcfoo", argDir := "/gp/srcfoo", module := false,
                  copySrc := "/gp/srcfoo", copyDst := "gopath/srcfoo", instrFile := "",
                  instrDir := "gopath/srcfoo" } (sampleGobco false)
      ∧ sampleSysTwoRoots.gopathList = ["/gp", "/gp/srcfoo"]
      ∧ AbsPath sampleSysTwoRoots.cwd "/gp/srcfoo/src/x" = ⟨true, ["gp", "srcfoo", "src", "x"]⟩
      ∧ parsePath (Join "/gp/srcfoo" "src") = ⟨true, ["gp", "srcfoo", "src"]⟩
      ∧ ["gp", "srcfoo", "src"] <+: ["gp", "srcfoo", "src", "x"]
      ∧ ¬ (["gp", "src"] <+: ["gp", "srcfoo", "src", "x"])
      ∧ Rel (parsePath "/gp/srcfoo") ⟨true, ["gp", "srcfoo", "src", "x"]⟩ = .ok "src/x"
      ∧ (sampleGobco false).findInGopath sampleSysTwoRoots "/gp/srcfoo/src/x"
          = .ok "srcfoo/src/x" (sampleGobco false) := by
  decide

end Gobco
